import Mathlib

/-!
# Spring engine splash screen (`rts/System/SplashScreen.cpp`)

A shallow embedding of `ShowSplashScreen` and `GetRenderDataBuffer`.

* Floats are exact rationals (`ℚ`); no rounding is modelled.
* `std::string` is `String`; a NUL character is an ordinary element of it.
* The collaborators (bitmap loader, font, clock, archive scanner, completion
  predicate) are oracles collected in `Env`.  An oracle that may answer
  differently at every call is a sequence indexed by the number of earlier
  calls; `State` carries those call counters.
* Every call that reaches a collaborator or the GL is recorded, in program
  order, in `State.trace`.
* The `for` loop may spin forever, so it takes fuel: one unit per evaluation
  of the loop condition.
-/

namespace SplashScreen

/-! ## Constants of the translation unit -/

/-- Vertex layout `VA_TYPE_2dT`: position `x y`, texture coordinate `s t`. -/
structure VA_TYPE_2dT where
  x : ℚ
  y : ℚ
  s : ℚ
  t : ℚ
deriving DecidableEq, Repr

/-- Four-component vector `float4`. -/
structure float4 where
  x : ℚ
  y : ℚ
  z : ℚ
  w : ℚ
deriving DecidableEq, Repr

def ELEMS : List VA_TYPE_2dT := [
  ⟨-1,  1,   0, 0⟩,
  ⟨-1, -1,   0, 1⟩,
  ⟨ 1, -1,   1, 1⟩,
  ⟨ 1,  1,   1, 0⟩
]

def INDCS : List Nat := [0, 1, 2,   2, 3, 0]

def NUM_ELEMS : Nat := ELEMS.length
def NUM_INDCS : Nat := INDCS.length

def TEXT_COLOR : float4 := ⟨1, 1, 1, 1⟩
/-- Anchor of the text block: x, y, scale, space. -/
def TEXT_COORS : float4 := ⟨1/2, 175/1000, 8/10, 4/100⟩

def FMT_STRS : Fin 5 → String
  | 0 => "[Initializing Virtual File System]"
  | 1 => "* archives scanned: %u"
  | 2 => "* scantime elapsed: %.1fms"
  | 3 => "Spring %s"
  | 4 => "This program is distributed under the GNU General Public License, see doc/LICENSE for more information."

/-! ## Types of the collaborators -/

/-- Modelled from the spec: the `FONT_*` option bits are declared in
`glFont.h`, outside the translation unit.  The bits that the routine names
are taken to be distinct, and an option word is the list of the bits or-ed
into it; `OUTLINE` is the outlined text style. -/
inductive FontFlag
  | NORM
  | SCALE
  | BUFFERED
  | OUTLINE
deriving DecidableEq, Repr

abbrev FontOptions := List FontFlag

/-- Content of the local `CBitmap bmp` once it has been filled. -/
inductive Bitmap
  | loaded (file : String)
  | dummy (color : List Nat)
deriving DecidableEq, Repr

/-- One variadic argument of a `glFormat` call. -/
inductive FmtArg
  | uint (n : Nat)
  | float (q : ℚ)
  | cstr (s : String)
deriving DecidableEq, Repr

/-- Calls that leave the routine, with the values passed and returned. -/
inductive Effect
  | bmpLoad (file : String) (ok : Bool)
  | bmpAllocDummy (color : List Nat)
  | bmpCreateTexture (bmp : Bitmap) (tex : Nat)
  | getTextWidth (text : String)
  | formatShader2DT (defines globals body stage : String)
  | rdbInit
  | rdbUpload2DT (numElems numIndcs : Nat) (elems : List VA_TYPE_2dT) (indcs : List Nat)
  | rdbCreateShader (numObjs : Nat)
  | progEnable
  | progSetUniformMatrix4x4 (name : String)
  | progSetUniform (name : String) (value : Int)
  | progDisable
  | glActiveTexture
  | glEnableTexture2D
  | springNow (t : Int)
  | testDone (answer : Bool)
  | glClear
  | glBindTexture (tex : Nat)
  | rdbEnableShader
  | rdbSubmit (numIndcs : Nat)
  | rdbDisableShader
  | fontSetTextColor (c : float4)
  | fontSetOutlineColor (c : float4)
  | getNumScannedArchives (n : Nat)
  | glFormat (x y s : ℚ) (options : FontOptions) (fmt : String) (arg : Option FmtArg)
  | fontDrawBufferedGL4
  | swapBuffers
  | pollEvent
  | glDisableTexture2D
  | glDeleteTextures (tex : Nat)
  | rdbKill
deriving DecidableEq, Repr

/-- The collaborators of the routine. -/
structure Env where
  /-- Result of `CBitmap::Load` for a file name. -/
  bmpLoad : String → Bool
  /-- Handle returned by `CBitmap::CreateTexture` for a bitmap. -/
  createTexture : Bitmap → Nat
  /-- Result of `font->GetTextWidth`. -/
  getTextWidth : String → ℚ
  /-- Value of `globalRendering->pixelX`. -/
  pixelX : ℚ
  /-- Result of `font->GetSize()`. -/
  fontSize : ℚ
  /-- Answer of the k-th call (from 0) of `testDoneFunc`. -/
  testDone : Nat → Bool
  /-- Reading of the k-th call (from 0) of `spring_now`, in nanoseconds. -/
  now : Nat → Int
  /-- Result of the k-th call (from 0) of `CArchiveScanner::GetNumScannedArchives`. -/
  numScanned : Nat → Nat

/-- Trace of the calls made so far and the number of calls of each
sequence oracle. -/
structure State where
  trace : List Effect
  nDone : Nat
  nNow : Nat
  nScan : Nat
deriving DecidableEq, Repr

def State.init : State := ⟨[], 0, 0, 0⟩

def emit (e : Effect) (st : State) : State :=
  { st with trace := st.trace ++ [e] }

def testDoneFunc (env : Env) (st : State) : Bool × State :=
  let b := env.testDone st.nDone
  (b, { st with trace := st.trace ++ [Effect.testDone b], nDone := st.nDone + 1 })

def spring_now (env : Env) (st : State) : Int × State :=
  let t := env.now st.nNow
  (t, { st with trace := st.trace ++ [Effect.springNow t], nNow := st.nNow + 1 })

def GetNumScannedArchives (env : Env) (st : State) : Nat × State :=
  let n := env.numScanned st.nScan
  (n, { st with trace := st.trace ++ [Effect.getNumScannedArchives n], nScan := st.nScan + 1 })

def GetTextWidth (env : Env) (text : String) (st : State) : ℚ × State :=
  (env.getTextWidth text, emit (Effect.getTextWidth text) st)

/-- Modelled from the spec: `spring_time` and its `toMilliSecsf` are declared
outside the translation unit.  A reading of the clock is a whole number of
nanoseconds and `toMilliSecsf` is a duration in milliseconds, the unit of the
elapsed-time line. -/
def toMilliSecsf (ns : Int) : ℚ := (ns : ℚ) / 1000000

/-- `std::string::c_str` as read by a consumer of C strings: the characters
before the first NUL. -/
def c_str (s : String) : String := ⟨s.data.takeWhile (fun c => c != Char.ofNat 0)⟩

/-- The C formatting of a format string with at most one variadic argument, as
far as the routine uses it: a directive that has its argument is replaced
by the text of the argument (the digits of the number are supplied by
`shown`), every other character is copied. -/
def cFormat (shown : FmtArg → List Char) : List Char → Option FmtArg → List Char
  | [], _ => []
  | '%' :: 's' :: rest, some (FmtArg.cstr a) => a.data ++ cFormat shown rest none
  | '%' :: 'u' :: rest, some (FmtArg.uint n) => shown (FmtArg.uint n) ++ cFormat shown rest none
  | '%' :: '.' :: '1' :: 'f' :: rest, some (FmtArg.float q) =>
      shown (FmtArg.float q) ++ cFormat shown rest none
  | c :: rest, arg => c :: cFormat shown rest arg

/-- Text that a `glFormat` call hands to the font for a format string and its
argument. -/
def formatted (shown : FmtArg → List Char) (fmt : String) (arg : Option FmtArg) : String :=
  ⟨cFormat shown fmt.data arg⟩

/-! ## The routine -/

/-- How a bounded run of the routine ended: it returned, or the fuel ran out
while the loop was still spinning. -/
inductive Outcome
  | returned (st : State)
  | running (st : State)
deriving DecidableEq, Repr

def Outcome.state : Outcome → State
  | Outcome.returned st => st
  | Outcome.running st => st

def Outcome.trace (o : Outcome) : List Effect := o.state.trace

def Outcome.isReturned : Outcome → Bool
  | Outcome.returned _ => true
  | Outcome.running _ => false

def GetRenderDataBuffer (st : State) : State :=
  let st := emit (Effect.formatShader2DT "#define SPLASH_VERT_SHADER 1" "" "" "VS") st
  let st := emit (Effect.formatShader2DT "#define SPLASH_FRAG_SHADER 1" ""
    "\tf_color_rgba = texture(u_tex0, v_texcoor_st);\n" "FS") st
  let st := emit Effect.rdbInit st
  let st := emit (Effect.rdbUpload2DT NUM_ELEMS NUM_INDCS ELEMS INDCS) st
  let st := emit (Effect.rdbCreateShader 2) st
  let st := emit Effect.progEnable st
  let st := emit (Effect.progSetUniformMatrix4x4 "u_movi_mat") st
  let st := emit (Effect.progSetUniformMatrix4x4 "u_proj_mat") st
  let st := emit (Effect.progSetUniform "u_tex0" 0) st
  let st := emit Effect.progDisable st
  st

/-- The local `fontFlags`: `FONT_NORM | FONT_SCALE | FONT_BUFFERED`. -/
def fontFlags : FontOptions := [FontFlag.NORM, FontFlag.SCALE, FontFlag.BUFFERED]

/-- Lines 75-82: the bitmap is loaded, or replaced by the dummy, and uploaded. -/
def loadSplashTexture (env : Env) (splashScreenFile : String) (st : State) : Nat × State :=
  let (bmp, st) :=
    if splashScreenFile.isEmpty then
      (Bitmap.dummy [0, 0, 0, 0], emit (Effect.bmpAllocDummy [0, 0, 0, 0]) st)
    else
      let ok := env.bmpLoad splashScreenFile
      let st := emit (Effect.bmpLoad splashScreenFile ok) st
      if !ok then
        (Bitmap.dummy [0, 0, 0, 0], emit (Effect.bmpAllocDummy [0, 0, 0, 0]) st)
      else
        (Bitmap.loaded splashScreenFile, st)
  let splashTex := env.createTexture bmp
  (splashTex, emit (Effect.bmpCreateTexture bmp splashTex) st)

/-- Lines 86-90: the local `textWidth`. -/
def measureText (env : Env) (springVersionStr : String) (st : State) : (Fin 3 → ℚ) × State :=
  let (w0, st) := GetTextWidth env (FMT_STRS 0) st
  let (w1, st) := GetTextWidth env (FMT_STRS 4) st
  let (w2, st) := GetTextWidth env ("Spring " ++ springVersionStr) st
  (fun i => match i with
    | 0 => w0
    | 1 => w1
    | 2 => w2, st)

/-- Lines 91-95: the local `normWidth`. -/
def normWidthOf (env : Env) (textWidth : Fin 3 → ℚ) : Fin 3 → ℚ
  | 0 => textWidth 0 * env.pixelX * env.fontSize * TEXT_COORS.z
  | 1 => textWidth 1 * env.pixelX * env.fontSize * TEXT_COORS.z
  | 2 => textWidth 2 * env.pixelX * env.fontSize * TEXT_COORS.z

/-- Lines 104-125: the body of the loop. -/
def renderFrame (env : Env) (springVersionStr : String) (splashTex : Nat)
    (normWidth : Fin 3 → ℚ) (t0 t1 : Int) (st : State) : State :=
  let st := emit Effect.glClear st
  let st := emit (Effect.glBindTexture splashTex) st
  let st := emit Effect.rdbEnableShader st
  let st := emit (Effect.rdbSubmit NUM_INDCS) st
  let st := emit Effect.rdbDisableShader st
  let st := emit (Effect.fontSetTextColor TEXT_COLOR) st
  let st := emit (Effect.glFormat (TEXT_COORS.x - normWidth 0 * (500 / 1000)) TEXT_COORS.y
    TEXT_COORS.z fontFlags (FMT_STRS 0) none) st
  let (n, st) := GetNumScannedArchives env st
  let st := emit (Effect.glFormat (TEXT_COORS.x - normWidth 0 * (475 / 1000))
    (TEXT_COORS.y - TEXT_COORS.w * TEXT_COORS.z * 1) TEXT_COORS.z fontFlags (FMT_STRS 1)
    (some (FmtArg.uint n))) st
  let st := emit (Effect.glFormat (TEXT_COORS.x - normWidth 0 * (475 / 1000))
    (TEXT_COORS.y - TEXT_COORS.w * TEXT_COORS.z * 2) TEXT_COORS.z fontFlags (FMT_STRS 2)
    (some (FmtArg.float (toMilliSecsf (t1 - t0))))) st
  let st := emit (Effect.fontSetOutlineColor ⟨0, 0, 0, 65 / 100⟩) st
  let st := emit (Effect.fontSetTextColor TEXT_COLOR) st
  let st := emit (Effect.glFormat (TEXT_COORS.x - normWidth 2 * (5 / 10))
    (TEXT_COORS.y * (5 / 10) - TEXT_COORS.w * TEXT_COORS.z * 1) TEXT_COORS.z
    (fontFlags ++ [FontFlag.OUTLINE]) (FMT_STRS 3)
    (some (FmtArg.cstr (c_str springVersionStr)))) st
  let st := emit (Effect.glFormat (TEXT_COORS.x - normWidth 1 * (5 / 10))
    (TEXT_COORS.y * (5 / 10) - TEXT_COORS.w * TEXT_COORS.z * 2) TEXT_COORS.z
    (fontFlags ++ [FontFlag.OUTLINE]) (FMT_STRS 4) none) st
  let st := emit Effect.fontDrawBufferedGL4 st
  let st := emit Effect.swapBuffers st
  let st := emit Effect.pollEvent st
  st

/-- Line 103: the `for` loop after its init statement; `t1` is the loop
variable.  One unit of fuel is spent per evaluation of the condition. -/
def splashLoop (env : Env) (springVersionStr : String) (splashTex : Nat)
    (normWidth : Fin 3 → ℚ) (t0 : Int) : Nat → Int → State → Outcome
  | 0, _, st => Outcome.running st
  | fuel + 1, t1, st =>
    let (done, st) := testDoneFunc env st
    if done then
      Outcome.returned st
    else
      let st := renderFrame env springVersionStr splashTex normWidth t0 t1 st
      let (t1, st) := spring_now env st
      splashLoop env springVersionStr splashTex normWidth t0 fuel t1 st

/-- Lines 128-131: what follows the loop. -/
def teardown (splashTex : Nat) (st : State) : State :=
  let st := emit Effect.glDisableTexture2D st
  let st := emit (Effect.glDeleteTextures splashTex) st
  let st := emit Effect.rdbKill st
  st

def ShowSplashScreen (env : Env) (splashScreenFile springVersionStr : String)
    (fuel : Nat) : Outcome :=
  let st := State.init
  let (splashTex, st) := loadSplashTexture env splashScreenFile st
  let (textWidth, st) := measureText env springVersionStr st
  let normWidth := normWidthOf env textWidth
  let st := GetRenderDataBuffer st
  let st := emit Effect.glActiveTexture st
  let st := emit Effect.glEnableTexture2D st
  let (t0, st) := spring_now env st
  match splashLoop env springVersionStr splashTex normWidth t0 fuel t0 st with
  | Outcome.returned st => Outcome.returned (teardown splashTex st)
  | Outcome.running st => Outcome.running st

/-! ## Reading a trace -/

def isPredEval : Effect → Bool
  | Effect.testDone _ => true
  | _ => false

def isClockRead : Effect → Bool
  | Effect.springNow _ => true
  | _ => false

def isSwap : Effect → Bool
  | Effect.swapBuffers => true
  | _ => false

def isClear : Effect → Bool
  | Effect.glClear => true
  | _ => false

/-- The marks of the loop: an evaluation of the predicate, the start of a
frame, the presentation of a frame. -/
def isLoopMark (e : Effect) : Bool := isPredEval e || isClear e || isSwap e

/-- A reading of the clock or a mark of the loop. -/
def isClockOrLoopMark (e : Effect) : Bool := isClockRead e || isLoopMark e

def isPoll : Effect → Bool
  | Effect.pollEvent => true
  | _ => false

def isBufferCreate : Effect → Bool
  | Effect.rdbInit => true
  | _ => false

def isShaderCreate : Effect → Bool
  | Effect.rdbCreateShader _ => true
  | _ => false

def isBufferKill : Effect → Bool
  | Effect.rdbKill => true
  | _ => false

def isBitmapLoad : Effect → Bool
  | Effect.bmpLoad _ _ => true
  | _ => false

def isAllocDummy : Effect → Bool
  | Effect.bmpAllocDummy _ => true
  | _ => false

/-- Creation or release of the texture, the render buffer or its shader. -/
def isResourceCall : Effect → Bool
  | Effect.bmpCreateTexture _ _ => true
  | Effect.rdbInit => true
  | Effect.rdbCreateShader _ => true
  | Effect.glDeleteTextures _ => true
  | Effect.rdbKill => true
  | _ => false

/-- Calls that the loop makes: the predicate, the clock and the calls of the
body. -/
def isLoopCall : Effect → Bool
  | Effect.testDone _ => true
  | Effect.springNow _ => true
  | Effect.glClear => true
  | Effect.glBindTexture _ => true
  | Effect.rdbEnableShader => true
  | Effect.rdbSubmit _ => true
  | Effect.rdbDisableShader => true
  | Effect.fontSetTextColor _ => true
  | Effect.fontSetOutlineColor _ => true
  | Effect.getNumScannedArchives _ => true
  | Effect.glFormat _ _ _ _ _ _ => true
  | Effect.fontDrawBufferedGL4 => true
  | Effect.swapBuffers => true
  | Effect.pollEvent => true
  | _ => false

/-- Handles returned by the texture creations of a trace, in order. -/
def texturesCreated (trace : List Effect) : List Nat :=
  trace.filterMap fun e => match e with
    | Effect.bmpCreateTexture _ tex => some tex
    | _ => none

/-- Handles passed to the texture deletions of a trace, in order. -/
def texturesDeleted (trace : List Effect) : List Nat :=
  trace.filterMap fun e => match e with
    | Effect.glDeleteTextures tex => some tex
    | _ => none

/-- Splits a trace into frames.  A frame opens after an evaluation of the
predicate that answered false and closes at the next reading of the clock;
the first argument is the frame that is open, if one is. -/
def framesAux : Option (List Effect) → List Effect → List (List Effect)
  | _, [] => []
  | none, Effect.testDone false :: es => framesAux (some []) es
  | none, _ :: es => framesAux none es
  | some acc, Effect.springNow _ :: es => acc :: framesAux none es
  | some acc, e :: es => framesAux (some (acc ++ [e])) es

/-- The rendered frames of a trace, each the list of its effects. -/
def frames (trace : List Effect) : List (List Effect) := framesAux none trace

/-- Effects of a trace before the first evaluation of the predicate. -/
def beforeFirstPredEval (trace : List Effect) : List Effect :=
  trace.takeWhile fun e => !isPredEval e

/-- Effects of a trace after the last evaluation of the predicate. -/
def afterLastPredEval (trace : List Effect) : List Effect :=
  (trace.reverse.takeWhile fun e => !isPredEval e).reverse

/-- Values returned by the reads of the archive counter, in order. -/
def archiveReads (trace : List Effect) : List Nat :=
  trace.filterMap fun e => match e with
    | Effect.getNumScannedArchives n => some n
    | _ => none

/-- Numbers passed to the archives-scanned line, in order. -/
def archivesShown (trace : List Effect) : List Nat :=
  trace.filterMap fun e => match e with
    | Effect.glFormat _ _ _ _ fmt (some (FmtArg.uint n)) =>
        if fmt = FMT_STRS 1 then some n else none
    | _ => none

/-- Values passed to the scantime-elapsed line, in order. -/
def elapsedShown (trace : List Effect) : List ℚ :=
  trace.filterMap fun e => match e with
    | Effect.glFormat _ _ _ _ fmt (some (FmtArg.float q)) =>
        if fmt = FMT_STRS 2 then some q else none
    | _ => none

/-- Readings returned by the clock, in order. -/
def clockReads (trace : List Effect) : List Int :=
  trace.filterMap fun e => match e with
    | Effect.springNow t => some t
    | _ => none

/-- Index counts passed to the draw calls, in order. -/
def submittedCounts (trace : List Effect) : List Nat :=
  trace.filterMap fun e => match e with
    | Effect.rdbSubmit n => some n
    | _ => none

/-- Index counts and index lists passed to the uploads, in order. -/
def uploadedIndices (trace : List Effect) : List (Nat × List Nat) :=
  trace.filterMap fun e => match e with
    | Effect.rdbUpload2DT _ n _ indcs => some (n, indcs)
    | _ => none

/-- Pairs (format string, outline flag set) of the text lines of a trace, in
order. -/
def textLines (trace : List Effect) : List (String × Bool) :=
  trace.filterMap fun e => match e with
    | Effect.glFormat _ _ _ options fmt _ => some (fmt, decide (FontFlag.OUTLINE ∈ options))
    | _ => none

def isSwapOrPoll (e : Effect) : Bool := isSwap e || isPoll e

/-- The header line, the version line or the license line. -/
def isTitleLine : Effect → Bool
  | Effect.glFormat _ _ _ _ fmt _ => fmt == FMT_STRS 0 || fmt == FMT_STRS 3 || fmt == FMT_STRS 4
  | _ => false

/-- Normalized width of the text that a text line renders: the measured width
of the formatted text, times the pixel scale, the font size and the text
scale 0.8. -/
def lineWidth (env : Env) (shown : FmtArg → List Char) (fmt : String) (arg : Option FmtArg) : ℚ :=
  env.getTextWidth (formatted shown fmt arg) * env.pixelX * env.fontSize * (8 / 10)

/-- A text line whose left edge is 0.5 minus half the width of the text it
renders. -/
def isCentred (env : Env) (shown : FmtArg → List Char) : Effect → Bool
  | Effect.glFormat x _ _ _ fmt arg => decide (x = 1 / 2 - lineWidth env shown fmt arg / 2)
  | _ => false

/-- A completion predicate that watches the clock: its k-th call (from 0) is
made at clock time `callTime k` and answers true once at least `threshold`
nanoseconds have passed since `start`. -/
def thresholdDone (start threshold : Int) (callTime : Nat → Int) (k : Nat) : Bool :=
  decide (threshold ≤ callTime k - start)

/-! ## Geometry of the quad -/

/-- Triangles that a draw call in triangle mode assembles from an index list:
one for each consecutive triple. -/
def trianglesOf : List Nat → List (Nat × Nat × Nat)
  | a :: b :: c :: rest => (a, b, c) :: trianglesOf rest
  | _ => []

/-- Position of the vertex of `ELEMS` with the given index, in an ordered
field. -/
def vertexPos (K : Type) [LinearOrderedField K] (i : Nat) : K × K :=
  match ELEMS[i]? with
  | some v => ((v.x : K), (v.y : K))
  | none => (0, 0)

/-- Twice the signed area of the triangle a, b, p. -/
def cross {K : Type} [LinearOrderedField K] (a b p : K × K) : K :=
  (b.1 - a.1) * (p.2 - a.2) - (b.2 - a.2) * (p.1 - a.1)

/-- The triangle has area zero. -/
def isDegenerate (K : Type) [LinearOrderedField K] (t : Nat × Nat × Nat) : Prop :=
  cross (vertexPos K t.1) (vertexPos K t.2.1) (vertexPos K t.2.2) = 0

/-- The point lies in the closed triangle: on the same side of its three
edges. -/
def inTriangle {K : Type} [LinearOrderedField K] (t : Nat × Nat × Nat) (p : K × K) : Prop :=
  (0 ≤ cross (vertexPos K t.1) (vertexPos K t.2.1) p ∧
    0 ≤ cross (vertexPos K t.2.1) (vertexPos K t.2.2) p ∧
    0 ≤ cross (vertexPos K t.2.2) (vertexPos K t.1) p) ∨
  (cross (vertexPos K t.1) (vertexPos K t.2.1) p ≤ 0 ∧
    cross (vertexPos K t.2.1) (vertexPos K t.2.2) p ≤ 0 ∧
    cross (vertexPos K t.2.2) (vertexPos K t.1) p ≤ 0)

/-- The point lies in the open triangle: strictly on the same side of its
three edges. -/
def inTriangleInterior {K : Type} [LinearOrderedField K] (t : Nat × Nat × Nat) (p : K × K) :
    Prop :=
  (0 < cross (vertexPos K t.1) (vertexPos K t.2.1) p ∧
    0 < cross (vertexPos K t.2.1) (vertexPos K t.2.2) p ∧
    0 < cross (vertexPos K t.2.2) (vertexPos K t.1) p) ∨
  (cross (vertexPos K t.1) (vertexPos K t.2.1) p < 0 ∧
    cross (vertexPos K t.2.1) (vertexPos K t.2.2) p < 0 ∧
    cross (vertexPos K t.2.2) (vertexPos K t.1) p < 0)

/-- The point lies in the viewport square of normalized device coordinates. -/
def inViewport {K : Type} [LinearOrderedField K] (p : K × K) : Prop :=
  -1 ≤ p.1 ∧ p.1 ≤ 1 ∧ -1 ≤ p.2 ∧ p.2 ≤ 1

/-- The answers of a predicate put its first true answer at its n-th call. -/
def firstTrueAtCall (p : Nat → Bool) (n : Nat) : Prop :=
  1 ≤ n ∧ p (n - 1) = true ∧ ∀ k, k < n - 1 → p k = false

instance (p : Nat → Bool) (n : Nat) : Decidable (firstTrueAtCall p n) := by
  unfold firstTrueAtCall; infer_instance

/-! ## The trace in closed form -/

/-- Effects of lines 79-80. -/
def loadEffects (env : Env) (file : String) : List Effect :=
  if file.isEmpty then [Effect.bmpAllocDummy [0, 0, 0, 0]]
  else if env.bmpLoad file then [Effect.bmpLoad file true]
  else [Effect.bmpLoad file false, Effect.bmpAllocDummy [0, 0, 0, 0]]

/-- Bitmap that the texture is created from. -/
def splashBitmap (env : Env) (file : String) : Bitmap :=
  if file.isEmpty || !env.bmpLoad file then Bitmap.dummy [0, 0, 0, 0] else Bitmap.loaded file

/-- Handle of the splash texture. -/
def splashTexOf (env : Env) (file : String) : Nat := env.createTexture (splashBitmap env file)

/-- Value of the local `normWidth`. -/
def splashNormWidth (env : Env) (ver : String) : Fin 3 → ℚ :=
  normWidthOf env fun i => match i with
    | 0 => env.getTextWidth (FMT_STRS 0)
    | 1 => env.getTextWidth (FMT_STRS 4)
    | 2 => env.getTextWidth ("Spring " ++ ver)

/-- Effects of `GetRenderDataBuffer`. -/
def renderDataBufferEffects : List Effect := [
  Effect.formatShader2DT "#define SPLASH_VERT_SHADER 1" "" "" "VS",
  Effect.formatShader2DT "#define SPLASH_FRAG_SHADER 1" ""
    "\tf_color_rgba = texture(u_tex0, v_texcoor_st);\n" "FS",
  Effect.rdbInit,
  Effect.rdbUpload2DT NUM_ELEMS NUM_INDCS ELEMS INDCS,
  Effect.rdbCreateShader 2,
  Effect.progEnable,
  Effect.progSetUniformMatrix4x4 "u_movi_mat",
  Effect.progSetUniformMatrix4x4 "u_proj_mat",
  Effect.progSetUniform "u_tex0" 0,
  Effect.progDisable]

/-- Effects up to and including the init statement of the loop. -/
def setupEffects (env : Env) (file ver : String) : List Effect :=
  loadEffects env file ++
  [Effect.bmpCreateTexture (splashBitmap env file) (splashTexOf env file),
   Effect.getTextWidth (FMT_STRS 0),
   Effect.getTextWidth (FMT_STRS 4),
   Effect.getTextWidth ("Spring " ++ ver)] ++
  renderDataBufferEffects ++
  [Effect.glActiveTexture, Effect.glEnableTexture2D, Effect.springNow (env.now 0)]

/-- Effects of one pass through the body of the loop. -/
def frameEffects (ver : String) (tex : Nat) (nw : Fin 3 → ℚ) (elapsed : Int) (scanned : Nat) :
    List Effect := [
  Effect.glClear,
  Effect.glBindTexture tex,
  Effect.rdbEnableShader,
  Effect.rdbSubmit NUM_INDCS,
  Effect.rdbDisableShader,
  Effect.fontSetTextColor TEXT_COLOR,
  Effect.glFormat (TEXT_COORS.x - nw 0 * (500 / 1000)) TEXT_COORS.y TEXT_COORS.z fontFlags
    (FMT_STRS 0) none,
  Effect.getNumScannedArchives scanned,
  Effect.glFormat (TEXT_COORS.x - nw 0 * (475 / 1000))
    (TEXT_COORS.y - TEXT_COORS.w * TEXT_COORS.z * 1) TEXT_COORS.z fontFlags (FMT_STRS 1)
    (some (FmtArg.uint scanned)),
  Effect.glFormat (TEXT_COORS.x - nw 0 * (475 / 1000))
    (TEXT_COORS.y - TEXT_COORS.w * TEXT_COORS.z * 2) TEXT_COORS.z fontFlags (FMT_STRS 2)
    (some (FmtArg.float (toMilliSecsf elapsed))),
  Effect.fontSetOutlineColor ⟨0, 0, 0, 65 / 100⟩,
  Effect.fontSetTextColor TEXT_COLOR,
  Effect.glFormat (TEXT_COORS.x - nw 2 * (5 / 10))
    (TEXT_COORS.y * (5 / 10) - TEXT_COORS.w * TEXT_COORS.z * 1) TEXT_COORS.z
    (fontFlags ++ [FontFlag.OUTLINE]) (FMT_STRS 3) (some (FmtArg.cstr (c_str ver))),
  Effect.glFormat (TEXT_COORS.x - nw 1 * (5 / 10))
    (TEXT_COORS.y * (5 / 10) - TEXT_COORS.w * TEXT_COORS.z * 2) TEXT_COORS.z
    (fontFlags ++ [FontFlag.OUTLINE]) (FMT_STRS 4) none,
  Effect.fontDrawBufferedGL4,
  Effect.swapBuffers,
  Effect.pollEvent]

/-- Effects of the frame that follows the k-th (from 0) evaluation of the
predicate. -/
def frameOf (env : Env) (file ver : String) (k : Nat) : List Effect :=
  frameEffects ver (splashTexOf env file) (splashNormWidth env ver) (env.now k - env.now 0)
    (env.numScanned k)

/-- Effects of the loop from its k-th (from 0) evaluation of the predicate
on, with the given fuel. -/
def loopEffects (env : Env) (file ver : String) : Nat → Nat → List Effect
  | _, 0 => []
  | k, fuel + 1 =>
    if env.testDone k then [Effect.testDone true]
    else Effect.testDone false :: (frameOf env file ver k ++
      Effect.springNow (env.now (k + 1)) :: loopEffects env file ver (k + 1) fuel)

/-- Effects of a loop that renders c frames from the k-th (from 0) evaluation
of the predicate on and then leaves. -/
def passEffects (env : Env) (file ver : String) : Nat → Nat → List Effect
  | _, 0 => [Effect.testDone true]
  | k, c + 1 => Effect.testDone false :: (frameOf env file ver k ++
      Effect.springNow (env.now (k + 1)) :: passEffects env file ver (k + 1) c)

/-- Effects of c consecutive passes of the loop, from the k-th (from 0)
evaluation of the predicate on: a false answer, the frame, the clock. -/
def spinEffects (env : Env) (file ver : String) : Nat → Nat → List Effect
  | _, 0 => []
  | k, c + 1 => Effect.testDone false :: (frameOf env file ver k ++
      Effect.springNow (env.now (k + 1)) :: spinEffects env file ver (k + 1) c)

/-- Calls that follow the last frame: the true answer and the teardown. -/
def isExitCall : Effect → Bool
  | Effect.testDone true => true
  | Effect.glDisableTexture2D => true
  | Effect.glDeleteTextures _ => true
  | Effect.rdbKill => true
  | _ => false

/-- Effects after the loop. -/
def teardownEffects (tex : Nat) : List Effect :=
  [Effect.glDisableTexture2D, Effect.glDeleteTextures tex, Effect.rdbKill]

/-! ## Sample collaborators -/

/-- Collaborators with a clock that advances 30 ms between readings and a
predicate that reads the same clock and answers true from 50 ms on. -/
def timedEnv : Env where
  bmpLoad := fun f => f == "splash.png"
  createTexture := fun _ => 5
  getTextWidth := fun s => s.length
  pixelX := 1 / 1000
  fontSize := 20
  testDone := thresholdDone 0 50000000 (fun k => 30000000 * k)
  now := fun k => 30000000 * k
  numScanned := fun k => k

/-- Number formatting that prints nothing. -/
def noDigits : FmtArg → List Char := fun _ => []

/-- Collaborators whose predicate answers true at its first call. -/
def doneEnv : Env where
  bmpLoad := fun _ => false
  createTexture := fun _ => 3
  getTextWidth := fun s => s.length
  pixelX := 1 / 1000
  fontSize := 20
  testDone := fun _ => true
  now := fun k => 1000 * k
  numScanned := fun k => k

def sampleEnv : Env where
  bmpLoad := fun f => f == "ok.png"
  createTexture := fun _ => 7
  getTextWidth := fun s => s.length
  pixelX := 1 / 1000
  fontSize := 20
  testDone := fun k => decide (2 ≤ k)
  now := fun k => 30000000 * k
  numScanned := fun k => 10 * k + 1

/-! ## The routine and its closed-form trace -/

theorem renderFrame_eq (env : Env) (ver : String) (tex : Nat) (nw : Fin 3 → ℚ) (t0 t1 : Int)
    (st : State) :
    renderFrame env ver tex nw t0 t1 st =
      ⟨st.trace ++ frameEffects ver tex nw (t1 - t0) (env.numScanned st.nScan),
        st.nDone, st.nNow, st.nScan + 1⟩ := by
  simp [renderFrame, emit, GetNumScannedArchives, frameEffects]

theorem measureText_eq (env : Env) (ver : String) (st : State) :
    normWidthOf env (measureText env ver st).1 = splashNormWidth env ver ∧
    (measureText env ver st).2 =
      ⟨st.trace ++ [Effect.getTextWidth (FMT_STRS 0), Effect.getTextWidth (FMT_STRS 4),
        Effect.getTextWidth ("Spring " ++ ver)], st.nDone, st.nNow, st.nScan⟩ := by
  constructor
  · funext i
    fin_cases i <;> simp [normWidthOf, measureText, GetTextWidth, splashNormWidth]
  · simp [measureText, GetTextWidth, emit]

theorem loadSplashTexture_eq (env : Env) (file : String) (st : State) :
    loadSplashTexture env file st =
      (splashTexOf env file,
        ⟨st.trace ++ (loadEffects env file ++
          [Effect.bmpCreateTexture (splashBitmap env file) (splashTexOf env file)]),
          st.nDone, st.nNow, st.nScan⟩) := by
  unfold loadSplashTexture loadEffects splashTexOf splashBitmap
  by_cases h : file.isEmpty
  · simp [h, emit]
  · by_cases h2 : env.bmpLoad file <;> simp [h, h2, emit]

theorem GetRenderDataBuffer_eq (st : State) :
    GetRenderDataBuffer st =
      ⟨st.trace ++ renderDataBufferEffects, st.nDone, st.nNow, st.nScan⟩ := by
  simp [GetRenderDataBuffer, emit, renderDataBufferEffects]

theorem splashLoop_trace (env : Env) (file ver : String) :
    ∀ (fuel k : Nat) (T : List Effect),
      (splashLoop env ver (splashTexOf env file) (splashNormWidth env ver) (env.now 0) fuel
        (env.now k) ⟨T, k, k + 1, k⟩).trace = T ++ loopEffects env file ver k fuel := by
  intro fuel
  induction fuel with
  | zero => intro k T; simp [splashLoop, loopEffects, Outcome.trace, Outcome.state]
  | succ fuel ih =>
    intro k T
    by_cases h : env.testDone k
    · simp [splashLoop, loopEffects, testDoneFunc, h, Outcome.trace, Outcome.state]
    · have := ih (k + 1) (T ++ [Effect.testDone false] ++ frameOf env file ver k ++
        [Effect.springNow (env.now (k + 1))])
      simp only [Bool.not_eq_true] at h
      simp [splashLoop, loopEffects, testDoneFunc, h, renderFrame_eq, spring_now, frameOf] at this ⊢
      exact this

theorem splashLoop_returned (env : Env) (file ver : String) :
    ∀ (c k fuel : Nat) (T : List Effect),
      (∀ i, i < c → env.testDone (k + i) = false) → env.testDone (k + c) = true → c < fuel →
      splashLoop env ver (splashTexOf env file) (splashNormWidth env ver) (env.now 0) fuel
        (env.now k) ⟨T, k, k + 1, k⟩ =
        Outcome.returned ⟨T ++ passEffects env file ver k c, k + c + 1, k + c + 1, k + c⟩ := by
  intro c
  induction c with
  | zero =>
    intro k fuel T _ ht hf
    obtain ⟨fuel, rfl⟩ : ∃ f, fuel = f + 1 := ⟨fuel - 1, by omega⟩
    simp at ht
    simp [splashLoop, passEffects, testDoneFunc, ht]
  | succ c ih =>
    intro k fuel T hfalse ht hf
    obtain ⟨fuel, rfl⟩ : ∃ f, fuel = f + 1 := ⟨fuel - 1, by omega⟩
    have h0 : env.testDone k = false := by simpa using hfalse 0 (by omega)
    have := ih (k + 1) fuel (T ++ [Effect.testDone false] ++ frameOf env file ver k ++
        [Effect.springNow (env.now (k + 1))])
      (fun i hi => by have := hfalse (i + 1) (by omega); rwa [show k + 1 + i = k + (i + 1) by omega])
      (by rwa [show k + 1 + c = k + (c + 1) by omega]) (by omega)
    simp [splashLoop, passEffects, testDoneFunc, h0, renderFrame_eq, spring_now, frameOf] at this ⊢
    rw [this]
    simp; omega

/-- Trace of a bounded run, whatever the collaborators answer. -/
theorem ShowSplashScreen_trace (env : Env) (file ver : String) (fuel : Nat) :
    (ShowSplashScreen env file ver fuel).trace =
      setupEffects env file ver ++ loopEffects env file ver 0 fuel ++
        (if (ShowSplashScreen env file ver fuel).isReturned then
          teardownEffects (splashTexOf env file) else []) := by
  have h := splashLoop_trace env file ver fuel 0
    (setupEffects env file ver)
  unfold ShowSplashScreen
  simp only [loadSplashTexture_eq, (measureText_eq _ _ _).1, (measureText_eq _ _ _).2,
    GetRenderDataBuffer_eq, emit, spring_now, State.init, List.nil_append]
  simp only [setupEffects, List.append_assoc, List.cons_append, List.nil_append] at h
  simp only [List.append_assoc, List.cons_append, List.nil_append, setupEffects]
  revert h
  cases splashLoop env ver (splashTexOf env file) (splashNormWidth env ver) (env.now 0) fuel
      (env.now 0) _ with
  | returned st =>
    intro h
    simp [Outcome.trace, Outcome.state, Outcome.isReturned, teardown, emit, teardownEffects] at h ⊢
    rw [h]; simp
  | running st =>
    intro h
    simp [Outcome.trace, Outcome.state, Outcome.isReturned] at h ⊢
    rw [h]

/-- A run whose predicate first answers true at call m + 1, with
more fuel than m, returns with the trace of m frames. -/
theorem ShowSplashScreen_returned (env : Env) (file ver : String) (m fuel : Nat)
    (hfalse : ∀ k, k < m → env.testDone k = false) (htrue : env.testDone m = true)
    (hfuel : m < fuel) :
    ShowSplashScreen env file ver fuel =
      Outcome.returned ⟨setupEffects env file ver ++ passEffects env file ver 0 m ++
        teardownEffects (splashTexOf env file), m + 1, m + 1, m⟩ := by
  have h := splashLoop_returned env file ver m 0 fuel (setupEffects env file ver)
    (by simpa using hfalse) (by simpa using htrue) hfuel
  unfold ShowSplashScreen
  simp only [loadSplashTexture_eq, (measureText_eq _ _ _).1, (measureText_eq _ _ _).2,
    GetRenderDataBuffer_eq, emit, spring_now, State.init, List.nil_append]
  simp only [setupEffects, List.append_assoc, List.cons_append, List.nil_append, Nat.zero_add] at h
  simp only [List.append_assoc, List.cons_append, List.nil_append, setupEffects, Nat.zero_add]
  rw [h]
  simp [teardown, emit, teardownEffects]

/-! ## Frames of the closed-form trace -/

theorem framesAux_skip (pre rest : List Effect) (h : ∀ e ∈ pre, isPredEval e = false) :
    framesAux none (pre ++ rest) = framesAux none rest := by
  induction pre with
  | nil => rfl
  | cons e pre ih =>
    have he := h e (by simp)
    have ih := ih (fun x hx => h x (by simp [hx]))
    cases e <;> simp_all [framesAux, isPredEval]

theorem loadEffects_cases (env : Env) (file : String) :
    loadEffects env file = [Effect.bmpAllocDummy [0, 0, 0, 0]] ∨
    loadEffects env file = [Effect.bmpLoad file true] ∨
    loadEffects env file = [Effect.bmpLoad file false, Effect.bmpAllocDummy [0, 0, 0, 0]] := by
  unfold loadEffects
  split_ifs <;> simp

theorem setup_no_predEval (env : Env) (file ver : String) :
    ∀ e ∈ setupEffects env file ver, isPredEval e = false := by
  rcases loadEffects_cases env file with h | h | h <;>
    simp [setupEffects, h, renderDataBufferEffects, isPredEval]

theorem frames_passEffects (env : Env) (file ver : String) (tail : List Effect) :
    ∀ (c k : Nat), framesAux none (passEffects env file ver k c ++ tail) =
      (List.range' k c).map (frameOf env file ver) ++ framesAux none tail := by
  intro c
  induction c with
  | zero => intro k; simp [passEffects, framesAux]
  | succ c ih =>
    intro k
    have := ih (k + 1)
    simp [passEffects, framesAux, frameOf, frameEffects, List.range'_succ] at this ⊢
    exact this

theorem frames_returned (env : Env) (file ver : String) (m : Nat) :
    frames (setupEffects env file ver ++ passEffects env file ver 0 m ++
        teardownEffects (splashTexOf env file)) =
      (List.range m).map (frameOf env file ver) := by
  unfold frames
  rw [List.append_assoc, framesAux_skip _ _ (setup_no_predEval env file ver),
    frames_passEffects, List.range_eq_range']
  simp [teardownEffects, framesAux]

theorem frames_returned_assoc (env : Env) (file ver : String) (m : Nat) :
    frames (setupEffects env file ver ++ (passEffects env file ver 0 m ++
        teardownEffects (splashTexOf env file))) =
      (List.range m).map (frameOf env file ver) := by
  rw [← List.append_assoc, frames_returned]

/-! ## Predicate evaluations and frames -/

theorem firstTrueAtCall_split {p : Nat → Bool} {n : Nat} (h : firstTrueAtCall p n) :
    ∃ m, n = m + 1 ∧ p m = true ∧ ∀ k, k < m → p k = false := by
  obtain ⟨h1, h2, h3⟩ := h
  exact ⟨n - 1, by omega, h2, h3⟩

theorem ShowSplashScreen_of_firstTrue (env : Env) (file ver : String) (n fuel : Nat)
    (hfirst : firstTrueAtCall env.testDone n) (hfuel : n ≤ fuel) :
    ShowSplashScreen env file ver fuel =
      Outcome.returned ⟨setupEffects env file ver ++ passEffects env file ver 0 (n - 1) ++
        teardownEffects (splashTexOf env file), n, n, n - 1⟩ := by
  obtain ⟨m, rfl, ht, hf⟩ := firstTrueAtCall_split hfirst
  simpa using ShowSplashScreen_returned env file ver m fuel hf ht (by omega)

theorem countP_isSwap_pass (env : Env) (file ver : String) :
    ∀ (c k : Nat), (passEffects env file ver k c).countP isSwap = c := by
  intro c
  induction c with
  | zero => intro k; simp [passEffects, isSwap]
  | succ c ih =>
    intro k
    simp [passEffects, frameOf, frameEffects, List.countP_cons, isSwap, ih (k + 1)]

theorem countP_isPredEval_pass (env : Env) (file ver : String) :
    ∀ (c k : Nat), (passEffects env file ver k c).countP isPredEval = c + 1 := by
  intro c
  induction c with
  | zero => intro k; simp [passEffects, isPredEval]
  | succ c ih =>
    intro k
    simp [passEffects, frameOf, frameEffects, List.countP_cons, isPredEval, ih (k + 1)]

theorem filter_loopShape_pass (env : Env) (file ver : String) :
    ∀ (c k : Nat),
      (passEffects env file ver k c).filter isLoopMark =
        (List.replicate c [Effect.testDone false, Effect.glClear, Effect.swapBuffers]).flatten ++
          [Effect.testDone true] := by
  intro c
  induction c with
  | zero => intro k; simp [passEffects, isLoopMark, isPredEval]
  | succ c ih =>
    intro k
    simp [passEffects, frameOf, frameEffects, List.filter_cons, isLoopMark, isPredEval, isClear, isSwap,
      ih (k + 1), List.replicate_succ]

/-- C1: if the predicate's first true answer is its n-th call (n at least 1)
and the fuel covers n evaluations, the routine returns, has rendered exactly
n - 1 frames and has evaluated the predicate exactly n times: restricted to
predicate evaluations, frame starts and frame presentations, the trace is
n - 1 rounds of (false answer, clear, swap) followed by the true answer, so
there is one evaluation before each frame, one more for the exit, and no
frame after the true answer. -/
theorem C1_terminates_on_first_true (env : Env) (file ver : String) (n fuel : Nat)
    (hfirst : firstTrueAtCall env.testDone n) (hfuel : n ≤ fuel) :
    (ShowSplashScreen env file ver fuel).isReturned = true ∧
    (frames (ShowSplashScreen env file ver fuel).trace).length = n - 1 ∧
    (ShowSplashScreen env file ver fuel).trace.countP isSwap = n - 1 ∧
    (ShowSplashScreen env file ver fuel).trace.countP isPredEval = n ∧
    (ShowSplashScreen env file ver fuel).state.nDone = n ∧
    (ShowSplashScreen env file ver fuel).trace.filter isLoopMark =
      (List.replicate (n - 1)
        [Effect.testDone false, Effect.glClear, Effect.swapBuffers]).flatten ++
        [Effect.testDone true] := by
  have hn : 1 ≤ n := hfirst.1
  rw [ShowSplashScreen_of_firstTrue env file ver n fuel hfirst hfuel]
  refine ⟨rfl, ?_, ?_, ?_, rfl, ?_⟩
  · simp only [Outcome.trace, Outcome.state]
    rw [frames_returned]; simp
  · rcases loadEffects_cases env file with h | h | h <;>
      simp [Outcome.trace, Outcome.state, setupEffects, h, renderDataBufferEffects,
        teardownEffects, countP_isSwap_pass, List.countP_cons, isSwap]
  · rcases loadEffects_cases env file with h | h | h <;>
      simp [Outcome.trace, Outcome.state, setupEffects, h, renderDataBufferEffects,
        teardownEffects, countP_isPredEval_pass, List.countP_cons, isPredEval] <;> omega
  · rcases loadEffects_cases env file with h | h | h <;>
      simp [Outcome.trace, Outcome.state, setupEffects, h, renderDataBufferEffects,
        teardownEffects, filter_loopShape_pass, List.filter_cons, isLoopMark, isPredEval, isClear, isSwap]

/-- Instance of C1: a predicate that first answers true at its third call, fuel 5. -/
theorem C1_terminates_on_first_true_witness :
    firstTrueAtCall sampleEnv.testDone 3 ∧ 3 ≤ 5 ∧
    (ShowSplashScreen sampleEnv "" "1.0" 5).isReturned = true ∧
    (frames (ShowSplashScreen sampleEnv "" "1.0" 5).trace).length = 3 - 1 ∧
    (ShowSplashScreen sampleEnv "" "1.0" 5).trace.countP isSwap = 3 - 1 ∧
    (ShowSplashScreen sampleEnv "" "1.0" 5).trace.countP isPredEval = 3 ∧
    (ShowSplashScreen sampleEnv "" "1.0" 5).state.nDone = 3 ∧
    (ShowSplashScreen sampleEnv "" "1.0" 5).trace.filter isLoopMark =
      (List.replicate (3 - 1)
        [Effect.testDone false, Effect.glClear, Effect.swapBuffers]).flatten ++
        [Effect.testDone true] :=
  ⟨by decide, by decide, C1_terminates_on_first_true sampleEnv "" "1.0" 3 5 (by decide) (by decide)⟩

/-! ## Resources -/

theorem pass_head (env : Env) (file ver : String) (k c : Nat) :
    ∃ b rest, passEffects env file ver k c = Effect.testDone b :: rest := by
  cases c with
  | zero => exact ⟨true, [], rfl⟩
  | succ c => exact ⟨false, _, rfl⟩

theorem pass_last (env : Env) (file ver : String) :
    ∀ (c k : Nat), ∃ front, passEffects env file ver k c = front ++ [Effect.testDone true] := by
  intro c
  induction c with
  | zero => intro k; exact ⟨[], rfl⟩
  | succ c ih =>
    intro k
    obtain ⟨front, hfront⟩ := ih (k + 1)
    refine ⟨Effect.testDone false :: (frameOf env file ver k ++
      Effect.springNow (env.now (k + 1)) :: front), ?_⟩
    simp [passEffects, hfront]

theorem pass_no_resourceCall (env : Env) (file ver : String) :
    ∀ (c k : Nat), ∀ e ∈ passEffects env file ver k c, isResourceCall e = false := by
  intro c
  induction c with
  | zero => intro k e he; simp [passEffects] at he; simp [he, isResourceCall]
  | succ c ih =>
    intro k e he
    simp only [passEffects, List.mem_cons, List.mem_append] at he
    rcases he with h | h | h | h
    · simp [h, isResourceCall]
    · simp [frameOf, frameEffects] at h
      rcases h with h | h | h | h | h | h | h | h | h | h | h | h | h | h | h | h | h <;>
        simp [h, isResourceCall]
    · simp [h, isResourceCall]
    · exact ih (k + 1) e h

theorem beforeFirstPredEval_returned (env : Env) (file ver : String) (m : Nat)
    (tail : List Effect) :
    beforeFirstPredEval (setupEffects env file ver ++ (passEffects env file ver 0 m ++ tail)) =
      setupEffects env file ver := by
  obtain ⟨b, rest, h⟩ := pass_head env file ver 0 m
  unfold beforeFirstPredEval
  rw [List.takeWhile_append_of_pos (by
    intro e he; simp [setup_no_predEval env file ver e he]), h]
  simp [isPredEval]

theorem afterLastPredEval_returned (env : Env) (file ver : String) (m tex : Nat) :
    afterLastPredEval (setupEffects env file ver ++ (passEffects env file ver 0 m ++
      teardownEffects tex)) = teardownEffects tex := by
  obtain ⟨front, h⟩ := pass_last env file ver m 0
  unfold afterLastPredEval
  rw [h]
  simp [teardownEffects, List.takeWhile_cons, isPredEval]

theorem resources_nil_of (l : List Effect) (h : ∀ e ∈ l, isResourceCall e = false) :
    texturesCreated l = [] ∧ texturesDeleted l = [] ∧ l.countP isBufferCreate = 0 ∧
      l.countP isShaderCreate = 0 ∧ l.countP isBufferKill = 0 := by
  refine ⟨?_, ?_, ?_, ?_, ?_⟩
  · unfold texturesCreated
    rw [List.filterMap_eq_nil_iff]
    intro e he
    have hr := h e he
    clear h he
    cases e <;> simp [isResourceCall] at hr ⊢
  · unfold texturesDeleted
    rw [List.filterMap_eq_nil_iff]
    intro e he
    have hr := h e he
    clear h he
    cases e <;> simp [isResourceCall] at hr ⊢
  · rw [List.countP_eq_zero]
    intro e he
    have hr := h e he
    clear h he
    cases e <;> simp [isResourceCall, isBufferCreate] at hr ⊢
  · rw [List.countP_eq_zero]
    intro e he
    have hr := h e he
    clear h he
    cases e <;> simp [isResourceCall, isShaderCreate] at hr ⊢
  · rw [List.countP_eq_zero]
    intro e he
    have hr := h e he
    clear h he
    cases e <;> simp [isResourceCall, isBufferKill] at hr ⊢

theorem resources_setup (env : Env) (file ver : String) :
    texturesCreated (setupEffects env file ver) = [splashTexOf env file] ∧
    texturesDeleted (setupEffects env file ver) = [] ∧
    (setupEffects env file ver).countP isBufferCreate = 1 ∧
    (setupEffects env file ver).countP isShaderCreate = 1 ∧
    (setupEffects env file ver).countP isBufferKill = 0 := by
  rcases loadEffects_cases env file with h | h | h <;>
    simp [setupEffects, h, renderDataBufferEffects, texturesCreated, texturesDeleted,
      List.countP_cons, isBufferCreate, isShaderCreate, isBufferKill]

theorem resources_teardown (tex : Nat) :
    texturesCreated (teardownEffects tex) = [] ∧
    texturesDeleted (teardownEffects tex) = [tex] ∧
    (teardownEffects tex).countP isBufferCreate = 0 ∧
    (teardownEffects tex).countP isShaderCreate = 0 ∧
    (teardownEffects tex).countP isBufferKill = 1 := by
  simp [teardownEffects, texturesCreated, texturesDeleted,
      List.countP_cons, isBufferCreate, isShaderCreate, isBufferKill]

theorem texturesCreated_append (a b : List Effect) :
    texturesCreated (a ++ b) = texturesCreated a ++ texturesCreated b := by
  simp [texturesCreated]

theorem texturesDeleted_append (a b : List Effect) :
    texturesDeleted (a ++ b) = texturesDeleted a ++ texturesDeleted b := by
  simp [texturesDeleted]

/-- C2: for every image path and every run that returns (the predicate's
first true answer is its n-th call and the fuel covers it), whatever the
number n - 1 of frames, the trace holds exactly one texture creation, one
render-buffer creation and one shader creation, all before the first
evaluation of the predicate, and exactly one texture deletion, of the handle
that was created, and one render-buffer release, both after the last
evaluation of the predicate. -/
theorem C2_resources_created_and_released_once (env : Env) (file ver : String) (n fuel : Nat)
    (hfirst : firstTrueAtCall env.testDone n) (hfuel : n ≤ fuel) :
    (ShowSplashScreen env file ver fuel).isReturned = true ∧
    (frames (ShowSplashScreen env file ver fuel).trace).length = n - 1 ∧
    texturesCreated (ShowSplashScreen env file ver fuel).trace =
      [env.createTexture (splashBitmap env file)] ∧
    (ShowSplashScreen env file ver fuel).trace.countP isBufferCreate = 1 ∧
    (ShowSplashScreen env file ver fuel).trace.countP isShaderCreate = 1 ∧
    texturesCreated (beforeFirstPredEval (ShowSplashScreen env file ver fuel).trace) =
      texturesCreated (ShowSplashScreen env file ver fuel).trace ∧
    (beforeFirstPredEval (ShowSplashScreen env file ver fuel).trace).countP isBufferCreate = 1 ∧
    (beforeFirstPredEval (ShowSplashScreen env file ver fuel).trace).countP isShaderCreate = 1 ∧
    texturesDeleted (ShowSplashScreen env file ver fuel).trace =
      texturesCreated (ShowSplashScreen env file ver fuel).trace ∧
    (ShowSplashScreen env file ver fuel).trace.countP isBufferKill = 1 ∧
    texturesDeleted (afterLastPredEval (ShowSplashScreen env file ver fuel).trace) =
      texturesCreated (ShowSplashScreen env file ver fuel).trace ∧
    (afterLastPredEval (ShowSplashScreen env file ver fuel).trace).countP isBufferKill = 1 := by
  rw [ShowSplashScreen_of_firstTrue env file ver n fuel hfirst hfuel]
  simp only [Outcome.trace, Outcome.state, Outcome.isReturned, List.append_assoc]
  rw [frames_returned_assoc, beforeFirstPredEval_returned, afterLastPredEval_returned]
  obtain ⟨s1, s2, s3, s4, s5⟩ := resources_setup env file ver
  obtain ⟨t1, t2, t3, t4, t5⟩ := resources_teardown (splashTexOf env file)
  obtain ⟨p1, p2, p3, p4, p5⟩ := resources_nil_of _ (pass_no_resourceCall env file ver (n - 1) 0)
  simp only [texturesCreated_append, texturesDeleted_append, List.countP_append,
    s1, s2, s3, s4, s5, t1, t2, t3, t4, t5, p1, p2, p3, p4, p5]
  simp [splashTexOf]

/-- Instance of C2: the empty path and a predicate that answers true at its first call. -/
theorem C2_resources_created_and_released_once_witness :
    firstTrueAtCall doneEnv.testDone 1 ∧ 1 ≤ 1 ∧
    (ShowSplashScreen doneEnv "" "1.0" 1).isReturned = true ∧
    (frames (ShowSplashScreen doneEnv "" "1.0" 1).trace).length = 1 - 1 ∧
    texturesCreated (ShowSplashScreen doneEnv "" "1.0" 1).trace =
      [doneEnv.createTexture (splashBitmap doneEnv "")] ∧
    (ShowSplashScreen doneEnv "" "1.0" 1).trace.countP isBufferCreate = 1 ∧
    (ShowSplashScreen doneEnv "" "1.0" 1).trace.countP isShaderCreate = 1 ∧
    texturesCreated (beforeFirstPredEval (ShowSplashScreen doneEnv "" "1.0" 1).trace) =
      texturesCreated (ShowSplashScreen doneEnv "" "1.0" 1).trace ∧
    (beforeFirstPredEval (ShowSplashScreen doneEnv "" "1.0" 1).trace).countP isBufferCreate = 1 ∧
    (beforeFirstPredEval (ShowSplashScreen doneEnv "" "1.0" 1).trace).countP isShaderCreate = 1 ∧
    texturesDeleted (ShowSplashScreen doneEnv "" "1.0" 1).trace =
      texturesCreated (ShowSplashScreen doneEnv "" "1.0" 1).trace ∧
    (ShowSplashScreen doneEnv "" "1.0" 1).trace.countP isBufferKill = 1 ∧
    texturesDeleted (afterLastPredEval (ShowSplashScreen doneEnv "" "1.0" 1).trace) =
      texturesCreated (ShowSplashScreen doneEnv "" "1.0" 1).trace ∧
    (afterLastPredEval (ShowSplashScreen doneEnv "" "1.0" 1).trace).countP isBufferKill = 1 :=
  ⟨by decide, by decide,
    C2_resources_created_and_released_once doneEnv "" "1.0" 1 1 (by decide) (by decide)⟩

/-! ## Image load -/

theorem loop_isLoopCall (env : Env) (file ver : String) :
    ∀ (fuel k : Nat), ∀ e ∈ loopEffects env file ver k fuel, isLoopCall e = true := by
  intro fuel
  induction fuel with
  | zero => intro k e he; simp [loopEffects] at he
  | succ fuel ih =>
    intro k e he
    unfold loopEffects at he
    split_ifs at he with hd
    · simp at he; simp [he, isLoopCall]
    · simp only [List.mem_cons, List.mem_append] at he
      rcases he with h | h | h | h
      · simp [h, isLoopCall]
      · simp [frameOf, frameEffects] at h
        rcases h with h | h | h | h | h | h | h | h | h | h | h | h | h | h | h | h | h <;>
          simp [h, isLoopCall]
      · simp [h, isLoopCall]
      · exact ih (k + 1) e h

theorem loop_head (env : Env) (file ver : String) (k fuel : Nat) (hfuel : 1 ≤ fuel) :
    ∃ rest, loopEffects env file ver k fuel = Effect.testDone (env.testDone k) :: rest := by
  obtain ⟨fuel, rfl⟩ : ∃ f, fuel = f + 1 := ⟨fuel - 1, by omega⟩
  unfold loopEffects
  by_cases h : env.testDone k
  · exact ⟨[], by simp [h]⟩
  · simp only [Bool.not_eq_true] at h
    exact ⟨frameOf env file ver k ++
      Effect.springNow (env.now (k + 1)) :: loopEffects env file ver (k + 1) fuel, by simp [h]⟩

theorem bitmapCalls_nil_of (l : List Effect) (h : ∀ e ∈ l, isLoopCall e = true) :
    l.any isAllocDummy = false ∧ l.filter isBitmapLoad = [] := by
  constructor
  · rw [List.any_eq_false]
    intro e he
    have hr := h e he
    clear h he
    cases e <;> simp [isLoopCall, isAllocDummy] at hr ⊢
  · rw [List.filter_eq_nil_iff]
    intro e he
    have hr := h e he
    clear h he
    cases e <;> simp [isLoopCall, isBitmapLoad] at hr ⊢

theorem splashBitmap_eq (env : Env) (file : String) :
    splashBitmap env file =
      if file = "" ∨ env.bmpLoad file = false then Bitmap.dummy [0, 0, 0, 0]
      else Bitmap.loaded file := by
  unfold splashBitmap
  by_cases h1 : file = ""
  · simp [h1, String.isEmpty]
  · have : file.isEmpty = false := by
      rw [Bool.eq_false_iff]; intro hc; exact h1 ((String.isEmpty_iff file).1 hc)
    simp [h1, this]

/-- C3: for every path and every bounded run that reaches the loop condition,
the dummy bitmap is allocated exactly when the path is empty or the load of
the path fails; with an empty path no load is attempted, otherwise exactly
one, of that path; and in each case the texture is created from the resulting
bitmap (dummy or loaded) and the loop is entered: the creation is followed by
the first evaluation of the predicate. -/
theorem C3_image_load_fallback (env : Env) (file ver : String) (fuel : Nat)
    (hfuel : 1 ≤ fuel) :
    ((ShowSplashScreen env file ver fuel).trace.any isAllocDummy = true ↔
      (file = "" ∨ env.bmpLoad file = false)) ∧
    (file = "" → (ShowSplashScreen env file ver fuel).trace.filter isBitmapLoad = []) ∧
    (file ≠ "" → (ShowSplashScreen env file ver fuel).trace.filter isBitmapLoad =
      [Effect.bmpLoad file (env.bmpLoad file)]) ∧
    [Effect.bmpCreateTexture
        (if file = "" ∨ env.bmpLoad file = false then Bitmap.dummy [0, 0, 0, 0]
          else Bitmap.loaded file)
        (env.createTexture
          (if file = "" ∨ env.bmpLoad file = false then Bitmap.dummy [0, 0, 0, 0]
            else Bitmap.loaded file)),
      Effect.testDone (env.testDone 0)].Sublist (ShowSplashScreen env file ver fuel).trace := by
  rw [ShowSplashScreen_trace]
  obtain ⟨l1, l2⟩ := bitmapCalls_nil_of _ (loop_isLoopCall env file ver fuel 0)
  obtain ⟨rest, hrest⟩ := loop_head env file ver 0 fuel hfuel
  have htail : ∀ b : Bool, (if b then teardownEffects (splashTexOf env file) else []).any
      isAllocDummy = false ∧
      (if b then teardownEffects (splashTexOf env file) else []).filter isBitmapLoad = [] := by
    intro b; cases b <;> simp [teardownEffects, isAllocDummy, isBitmapLoad]
  obtain ⟨t1, t2⟩ := htail (ShowSplashScreen env file ver fuel).isReturned
  refine ⟨?_, ?_, ?_, ?_⟩
  · rw [List.any_append, List.any_append, l1, t1]
    by_cases h1 : file = ""
    · simp [h1, setupEffects, loadEffects, String.isEmpty, isAllocDummy]
    · have h1e : file.isEmpty = false := by
        rw [Bool.eq_false_iff]; intro hc; exact h1 ((String.isEmpty_iff file).1 hc)
      by_cases h2 : env.bmpLoad file <;>
        simp [h1, h1e, h2, setupEffects, loadEffects, renderDataBufferEffects, isAllocDummy]
  · intro h1
    rw [List.filter_append, List.filter_append, l2, t2]
    simp [h1, setupEffects, loadEffects, String.isEmpty, renderDataBufferEffects, isBitmapLoad]
  · intro h1
    have h1e : file.isEmpty = false := by
      rw [Bool.eq_false_iff]; intro hc; exact h1 ((String.isEmpty_iff file).1 hc)
    rw [List.filter_append, List.filter_append, l2, t2]
    by_cases h2 : env.bmpLoad file <;>
      simp [h1e, h2, setupEffects, loadEffects, renderDataBufferEffects, isBitmapLoad]
  · rw [← splashBitmap_eq, hrest]
    have hs : [Effect.bmpCreateTexture (splashBitmap env file)
        (env.createTexture (splashBitmap env file))].Sublist (setupEffects env file ver) := by
      rw [List.singleton_sublist]
      simp [setupEffects, splashTexOf]
    have hl : [Effect.testDone (env.testDone 0)].Sublist
        ((Effect.testDone (env.testDone 0) :: rest) ++
          (if (ShowSplashScreen env file ver fuel).isReturned then
            teardownEffects (splashTexOf env file) else [])) := by
      rw [List.singleton_sublist]; simp
    have := List.Sublist.append hs hl
    simpa [List.append_assoc] using this

/-- Instance of C3: a path whose load fails. -/
theorem C3_image_load_fallback_witness :
    1 ≤ 1 ∧
    (((ShowSplashScreen sampleEnv "missing.png" "1.0" 1).trace.any isAllocDummy = true ↔
      ("missing.png" = "" ∨ sampleEnv.bmpLoad "missing.png" = false)) ∧
    ("missing.png" = "" →
      (ShowSplashScreen sampleEnv "missing.png" "1.0" 1).trace.filter isBitmapLoad = []) ∧
    ("missing.png" ≠ "" →
      (ShowSplashScreen sampleEnv "missing.png" "1.0" 1).trace.filter isBitmapLoad =
      [Effect.bmpLoad "missing.png" (sampleEnv.bmpLoad "missing.png")]) ∧
    [Effect.bmpCreateTexture
        (if "missing.png" = "" ∨ sampleEnv.bmpLoad "missing.png" = false
          then Bitmap.dummy [0, 0, 0, 0] else Bitmap.loaded "missing.png")
        (sampleEnv.createTexture
          (if "missing.png" = "" ∨ sampleEnv.bmpLoad "missing.png" = false
            then Bitmap.dummy [0, 0, 0, 0] else Bitmap.loaded "missing.png")),
      Effect.testDone (sampleEnv.testDone 0)].Sublist
        (ShowSplashScreen sampleEnv "missing.png" "1.0" 1).trace) :=
  ⟨by decide, C3_image_load_fallback sampleEnv "missing.png" "1.0" 1 (by decide)⟩

/-! ## Shape of every bounded run -/

theorem splashLoop_shape (env : Env) (file ver : String) :
    ∀ (fuel k : Nat) (T : List Effect), ∃ c, (∀ i, i < c → env.testDone (k + i) = false) ∧
      (splashLoop env ver (splashTexOf env file) (splashNormWidth env ver) (env.now 0) fuel
          (env.now k) ⟨T, k, k + 1, k⟩ =
        Outcome.running ⟨T ++ spinEffects env file ver k c, k + c, k + c + 1, k + c⟩ ∨
      splashLoop env ver (splashTexOf env file) (splashNormWidth env ver) (env.now 0) fuel
          (env.now k) ⟨T, k, k + 1, k⟩ =
        Outcome.returned ⟨T ++ (spinEffects env file ver k c ++ [Effect.testDone true]),
          k + c + 1, k + c + 1, k + c⟩) := by
  intro fuel
  induction fuel with
  | zero =>
    intro k T
    exact ⟨0, by intro i hi; omega, Or.inl (by simp [splashLoop, spinEffects])⟩
  | succ fuel ih =>
    intro k T
    by_cases h : env.testDone k
    · exact ⟨0, by intro i hi; omega,
        Or.inr (by simp [splashLoop, spinEffects, testDoneFunc, h])⟩
    · simp only [Bool.not_eq_true] at h
      obtain ⟨c, hfalse, hc⟩ := ih (k + 1) (T ++ [Effect.testDone false] ++
        frameOf env file ver k ++ [Effect.springNow (env.now (k + 1))])
      have e1 : k + 1 + c = k + (c + 1) := by omega
      refine ⟨c + 1, ?_, ?_⟩
      · intro i hi
        cases i with
        | zero => simpa using h
        | succ i =>
          have := hfalse i (by omega)
          rwa [show k + 1 + i = k + (i + 1) by omega] at this
      rcases hc with hc | hc
      · left
        simp [splashLoop, spinEffects, testDoneFunc, h, renderFrame_eq, spring_now, frameOf,
          e1] at hc ⊢
        exact hc
      · right
        simp [splashLoop, spinEffects, testDoneFunc, h, renderFrame_eq, spring_now, frameOf,
          e1] at hc ⊢
        exact hc

/-- Effects that follow the last pass of the loop in a run with the given
outcome. -/
theorem run_shape (env : Env) (file ver : String) (fuel : Nat) :
    ∃ c, (∀ k, k < c → env.testDone k = false) ∧
      (ShowSplashScreen env file ver fuel).trace =
      setupEffects env file ver ++ (spinEffects env file ver 0 c ++
        (if (ShowSplashScreen env file ver fuel).isReturned then
          Effect.testDone true :: teardownEffects (splashTexOf env file) else [])) := by
  obtain ⟨c, hfalse, h⟩ := splashLoop_shape env file ver fuel 0 (setupEffects env file ver)
  refine ⟨c, by simpa using hfalse, ?_⟩
  unfold ShowSplashScreen
  simp only [loadSplashTexture_eq, (measureText_eq _ _ _).1, (measureText_eq _ _ _).2,
    GetRenderDataBuffer_eq, emit, spring_now, State.init, List.nil_append]
  simp only [setupEffects, List.append_assoc, List.cons_append, List.nil_append,
    Nat.zero_add] at h
  simp only [List.append_assoc, List.cons_append, List.nil_append, setupEffects, Nat.zero_add]
  rcases h with h | h <;> rw [h] <;>
    simp [Outcome.trace, Outcome.state, Outcome.isReturned, teardown, emit, teardownEffects]

theorem ending_isExitCall (b : Bool) (tex : Nat) :
    ∀ e ∈ (if b then Effect.testDone true :: teardownEffects tex else []),
      isExitCall e = true := by
  intro e he
  cases b
  · simp at he
  · simp [teardownEffects] at he
    rcases he with h | h | h | h <;> simp [h, isExitCall]

theorem framesAux_exit (l : List Effect) (h : ∀ e ∈ l, isExitCall e = true) :
    framesAux none l = [] := by
  induction l with
  | nil => rfl
  | cons e l ih =>
    have he := h e (by simp)
    have ih := ih (fun x hx => h x (by simp [hx]))
    clear h
    cases e with
    | testDone b => cases b <;> simp_all [framesAux, isExitCall]
    | _ => simp_all [framesAux, isExitCall]

theorem frames_spin (env : Env) (file ver : String) (tail : List Effect) :
    ∀ (c k : Nat), framesAux none (spinEffects env file ver k c ++ tail) =
      (List.range' k c).map (frameOf env file ver) ++ framesAux none tail := by
  intro c
  induction c with
  | zero => intro k; simp [spinEffects]
  | succ c ih =>
    intro k
    have := ih (k + 1)
    simp [spinEffects, framesAux, frameOf, frameEffects, List.range'_succ] at this ⊢
    exact this

/-- The frames of a run of c passes are the c frames of the closed form. -/
theorem frames_shape (env : Env) (file ver : String) (c : Nat) (ending : List Effect)
    (hend : ∀ e ∈ ending, isExitCall e = true) :
    frames (setupEffects env file ver ++ (spinEffects env file ver 0 c ++ ending)) =
      (List.range c).map (frameOf env file ver) := by
  unfold frames
  rw [framesAux_skip _ _ (setup_no_predEval env file ver), frames_spin,
    framesAux_exit _ hend, List.range_eq_range']
  simp

/-- Every bounded run is the setup, as many passes of the loop as the trace
has frames, and, if the run returned, the true answer and the teardown. -/
theorem run_shape_frames (env : Env) (file ver : String) (fuel : Nat) :
    (ShowSplashScreen env file ver fuel).trace =
      setupEffects env file ver ++ (spinEffects env file ver 0
        (frames (ShowSplashScreen env file ver fuel).trace).length ++
        (if (ShowSplashScreen env file ver fuel).isReturned then
          Effect.testDone true :: teardownEffects (splashTexOf env file) else [])) ∧
      frames (ShowSplashScreen env file ver fuel).trace =
        (List.range (frames (ShowSplashScreen env file ver fuel).trace).length).map
          (frameOf env file ver) := by
  obtain ⟨c, _, hc⟩ := run_shape env file ver fuel
  have hf := frames_shape env file ver c _ (ending_isExitCall
    (ShowSplashScreen env file ver fuel).isReturned (splashTexOf env file))
  rw [← hc] at hf
  have hlen : (frames (ShowSplashScreen env file ver fuel).trace).length = c := by
    rw [hf]; simp
  rw [hlen]
  exact ⟨hc, hf⟩

/-- The predicate answered false before each frame of a bounded run. -/
theorem testDone_false_of_frame (env : Env) (file ver : String) (fuel k : Nat)
    (hk : k < (frames (ShowSplashScreen env file ver fuel).trace).length) :
    env.testDone k = false := by
  obtain ⟨c, hfalse, hc⟩ := run_shape env file ver fuel
  have hf := frames_shape env file ver c _ (ending_isExitCall
    (ShowSplashScreen env file ver fuel).isReturned (splashTexOf env file))
  rw [← hc] at hf
  have hlen : (frames (ShowSplashScreen env file ver fuel).trace).length = c := by
    rw [hf]; simp
  exact hfalse k (by omega)

theorem flatten_map_singleton {α β : Type} (g : α → β) (l : List α) :
    (l.map (fun j => [g j])).flatten = l.map g := by
  induction l with
  | nil => rfl
  | cons a l ih => simp [ih]

theorem filterMap_spin {β : Type} (f : Effect → Option β) (env : Env) (file ver : String) :
    ∀ (c k : Nat), (spinEffects env file ver k c).filterMap f =
      ((List.range' k c).map (fun j => (Effect.testDone false :: (frameOf env file ver j ++
        [Effect.springNow (env.now (j + 1))])).filterMap f)).flatten := by
  intro c
  induction c with
  | zero => intro k; simp [spinEffects]
  | succ c ih =>
    intro k
    have hsplit : spinEffects env file ver k (c + 1) =
        (Effect.testDone false :: (frameOf env file ver k ++
          [Effect.springNow (env.now (k + 1))])) ++ spinEffects env file ver (k + 1) c := by
      simp [spinEffects]
    rw [hsplit, List.filterMap_append, ih (k + 1), List.range'_succ]
    simp

/-- A projection of the trace of any bounded run reads its values in the
setup, then in each pass of the loop, then in the ending. -/
theorem filterMap_run {β : Type} (f : Effect → Option β) (env : Env) (file ver : String)
    (fuel : Nat) :
    (ShowSplashScreen env file ver fuel).trace.filterMap f =
      (setupEffects env file ver).filterMap f ++
      (((List.range (frames (ShowSplashScreen env file ver fuel).trace).length).map
        (fun j => (Effect.testDone false :: (frameOf env file ver j ++
          [Effect.springNow (env.now (j + 1))])).filterMap f)).flatten ++
      (if (ShowSplashScreen env file ver fuel).isReturned then
          Effect.testDone true :: teardownEffects (splashTexOf env file) else []).filterMap f) := by
  obtain ⟨htrace, _⟩ := run_shape_frames env file ver fuel
  generalize (frames (ShowSplashScreen env file ver fuel).trace).length = c at htrace ⊢
  rw [htrace, List.filterMap_append, List.filterMap_append, filterMap_spin,
    List.range_eq_range']

/-! ## Archive counter -/

/-- C4: in every bounded run, each rendered frame reads the archive counter
exactly once and passes exactly the value of that read to its
archives-scanned line; the read of frame k (from 0) is the k-th read of the
whole run, so no frame shows a value read in another frame. -/
theorem C4_archive_count_read_each_frame (env : Env) (file ver : String) (fuel : Nat) :
    (frames (ShowSplashScreen env file ver fuel).trace).map archiveReads =
      (List.range (frames (ShowSplashScreen env file ver fuel).trace).length).map
        (fun k => [env.numScanned k]) ∧
    (frames (ShowSplashScreen env file ver fuel).trace).map archivesShown =
      (List.range (frames (ShowSplashScreen env file ver fuel).trace).length).map
        (fun k => [env.numScanned k]) ∧
    archiveReads (ShowSplashScreen env file ver fuel).trace =
      (List.range (frames (ShowSplashScreen env file ver fuel).trace).length).map
        env.numScanned ∧
    archivesShown (ShowSplashScreen env file ver fuel).trace =
      archiveReads (ShowSplashScreen env file ver fuel).trace := by
  obtain ⟨_, hframes⟩ := run_shape_frames env file ver fuel
  have hreads : archiveReads (ShowSplashScreen env file ver fuel).trace =
      (List.range (frames (ShowSplashScreen env file ver fuel).trace).length).map
        env.numScanned := by
    unfold archiveReads
    rw [filterMap_run]
    rcases loadEffects_cases env file with h | h | h <;>
      cases (ShowSplashScreen env file ver fuel).isReturned <;>
      simp [setupEffects, h, renderDataBufferEffects, frameOf, frameEffects, teardownEffects,
        flatten_map_singleton]
  have hshown : archivesShown (ShowSplashScreen env file ver fuel).trace =
      (List.range (frames (ShowSplashScreen env file ver fuel).trace).length).map
        env.numScanned := by
    unfold archivesShown
    rw [filterMap_run]
    rcases loadEffects_cases env file with h | h | h <;>
      cases (ShowSplashScreen env file ver fuel).isReturned <;>
      simp [setupEffects, h, renderDataBufferEffects, frameOf, frameEffects, teardownEffects,
        flatten_map_singleton]
  refine ⟨?_, ?_, hreads, by rw [hshown, hreads]⟩
  · conv_lhs => rw [hframes]
    simp [frameOf, frameEffects, archiveReads]
  · conv_lhs => rw [hframes]
    simp [frameOf, frameEffects, archivesShown]

/-! ## Clock and elapsed time -/

theorem filter_spin (p : Effect → Bool) (env : Env) (file ver : String) :
    ∀ (c k : Nat), (spinEffects env file ver k c).filter p =
      ((List.range' k c).map (fun j => (Effect.testDone false :: (frameOf env file ver j ++
        [Effect.springNow (env.now (j + 1))])).filter p)).flatten := by
  intro c
  induction c with
  | zero => intro k; simp [spinEffects]
  | succ c ih =>
    intro k
    have hsplit : spinEffects env file ver k (c + 1) =
        (Effect.testDone false :: (frameOf env file ver k ++
          [Effect.springNow (env.now (k + 1))])) ++ spinEffects env file ver (k + 1) c := by
      simp [spinEffects]
    rw [hsplit, List.filter_append, ih (k + 1), List.range'_succ]
    simp

theorem filter_run (p : Effect → Bool) (env : Env) (file ver : String) (fuel : Nat) :
    (ShowSplashScreen env file ver fuel).trace.filter p =
      (setupEffects env file ver).filter p ++
      (((List.range (frames (ShowSplashScreen env file ver fuel).trace).length).map
        (fun j => (Effect.testDone false :: (frameOf env file ver j ++
          [Effect.springNow (env.now (j + 1))])).filter p)).flatten ++
      (if (ShowSplashScreen env file ver fuel).isReturned then
          Effect.testDone true :: teardownEffects (splashTexOf env file) else []).filter p) := by
  obtain ⟨htrace, _⟩ := run_shape_frames env file ver fuel
  generalize (frames (ShowSplashScreen env file ver fuel).trace).length = c at htrace ⊢
  rw [htrace, List.filter_append, List.filter_append, filter_spin, List.range_eq_range']

theorem spin_nil_or_head (env : Env) (file ver : String) (k c : Nat) :
    spinEffects env file ver k c = [] ∨
      ∃ rest, spinEffects env file ver k c = Effect.testDone false :: rest := by
  cases c with
  | zero => exact Or.inl rfl
  | succ c => exact Or.inr ⟨_, rfl⟩

theorem beforeFirstPredEval_run (env : Env) (file ver : String) (fuel : Nat) :
    beforeFirstPredEval (ShowSplashScreen env file ver fuel).trace =
      setupEffects env file ver := by
  obtain ⟨htrace, _⟩ := run_shape_frames env file ver fuel
  generalize (frames (ShowSplashScreen env file ver fuel).trace).length = c at htrace
  rw [htrace]
  unfold beforeFirstPredEval
  rw [List.takeWhile_append_of_pos (by
    intro e he; simp [setup_no_predEval env file ver e he])]
  rcases spin_nil_or_head env file ver 0 c with h | ⟨rest, h⟩
  · rw [h]
    cases (ShowSplashScreen env file ver fuel).isReturned <;> simp [isPredEval]
  · rw [h]; simp [isPredEval]

theorem elapsedShown_run (env : Env) (file ver : String) (fuel : Nat) :
    elapsedShown (ShowSplashScreen env file ver fuel).trace =
      (List.range (frames (ShowSplashScreen env file ver fuel).trace).length).map
        (fun k => toMilliSecsf (env.now k - env.now 0)) := by
  unfold elapsedShown
  rw [filterMap_run]
  rcases loadEffects_cases env file with h | h | h <;>
    cases (ShowSplashScreen env file ver fuel).isReturned <;>
    simp [setupEffects, h, renderDataBufferEffects, frameOf, frameEffects, teardownEffects,
      flatten_map_singleton]

theorem elapsedShown_frames (env : Env) (file ver : String) (fuel : Nat) :
    (frames (ShowSplashScreen env file ver fuel).trace).map elapsedShown =
      (List.range (frames (ShowSplashScreen env file ver fuel).trace).length).map
        (fun k => [toMilliSecsf (env.now k - env.now 0)]) := by
  obtain ⟨_, hframes⟩ := run_shape_frames env file ver fuel
  conv_lhs => rw [hframes]
  simp [frameOf, frameEffects, elapsedShown]

theorem toMilliSecsf_le {a b : Int} (h : a ≤ b) : toMilliSecsf a ≤ toMilliSecsf b := by
  unfold toMilliSecsf
  have : (a : ℚ) ≤ (b : ℚ) := by exact_mod_cast h
  exact div_le_div_of_nonneg_right this (by norm_num)

theorem toMilliSecsf_zero : toMilliSecsf 0 = 0 := by simp [toMilliSecsf]

/-- C5: in every bounded run whose clock readings are non-decreasing, the
values passed to the scantime-elapsed line are non-negative and
non-decreasing in the order drawn, and each frame shows exactly one of them,
so the value of frame j is at most the value of every later frame k. -/
theorem C5_elapsed_time_monotone (env : Env) (file ver : String) (fuel : Nat)
    (hmono : Monotone env.now) :
    (∀ q ∈ elapsedShown (ShowSplashScreen env file ver fuel).trace, 0 ≤ q) ∧
    (elapsedShown (ShowSplashScreen env file ver fuel).trace).Pairwise (fun a b => a ≤ b) ∧
    (frames (ShowSplashScreen env file ver fuel).trace).map elapsedShown =
      (elapsedShown (ShowSplashScreen env file ver fuel).trace).map (fun q => [q]) := by
  rw [elapsedShown_frames, elapsedShown_run]
  refine ⟨?_, ?_, by simp⟩
  · intro q hq
    simp only [List.mem_map] at hq
    obtain ⟨k, _, rfl⟩ := hq
    rw [← toMilliSecsf_zero]
    exact toMilliSecsf_le (by have := hmono (Nat.zero_le k); omega)
  · rw [List.pairwise_map]
    refine List.Pairwise.imp ?_ (List.pairwise_lt_range _)
    intro a b hab
    exact toMilliSecsf_le (by have := hmono (Nat.le_of_lt hab); omega)

/-- Instance of C5: a clock that advances 30 ms between readings. -/
theorem C5_elapsed_time_monotone_witness :
    Monotone sampleEnv.now ∧
    ((∀ q ∈ elapsedShown (ShowSplashScreen sampleEnv "ok.png" "1.0" 4).trace, 0 ≤ q) ∧
    (elapsedShown (ShowSplashScreen sampleEnv "ok.png" "1.0" 4).trace).Pairwise
      (fun a b => a ≤ b) ∧
    (frames (ShowSplashScreen sampleEnv "ok.png" "1.0" 4).trace).map elapsedShown =
      (elapsedShown (ShowSplashScreen sampleEnv "ok.png" "1.0" 4).trace).map (fun q => [q])) :=
  ⟨fun a b h => by simp only [sampleEnv]; omega,
    C5_elapsed_time_monotone sampleEnv "ok.png" "1.0" 4
      (fun a b h => by simp only [sampleEnv]; omega)⟩

/-- C10: in every bounded run the clock is read once before the first
evaluation of the predicate (the start time, also with zero frames) and once
after each rendered frame, so a run with f frames reads it f + 1 times; frame
k (from 0) shows the k-th reading minus the start time, which is 0 for the
first frame and for every later frame the reading taken right after the frame
before it, ahead of the evaluation of the predicate that let the frame in. -/
theorem C10_elapsed_time_formula (env : Env) (file ver : String) (fuel : Nat) :
    clockReads (ShowSplashScreen env file ver fuel).trace =
      (List.range ((frames (ShowSplashScreen env file ver fuel).trace).length + 1)).map
        env.now ∧
    clockReads (beforeFirstPredEval (ShowSplashScreen env file ver fuel).trace) =
      [env.now 0] ∧
    (ShowSplashScreen env file ver fuel).trace.filter isClockOrLoopMark =
      Effect.springNow (env.now 0) ::
        (((List.range (frames (ShowSplashScreen env file ver fuel).trace).length).map
          (fun k => [Effect.testDone false, Effect.glClear, Effect.swapBuffers,
            Effect.springNow (env.now (k + 1))])).flatten ++
        (if (ShowSplashScreen env file ver fuel).isReturned then [Effect.testDone true]
          else [])) ∧
    (frames (ShowSplashScreen env file ver fuel).trace).map elapsedShown =
      (List.range (frames (ShowSplashScreen env file ver fuel).trace).length).map
        (fun k => [toMilliSecsf (env.now k - env.now 0)]) ∧
    toMilliSecsf (env.now 0 - env.now 0) = 0 := by
  refine ⟨?_, ?_, ?_, elapsedShown_frames env file ver fuel, by simp [toMilliSecsf]⟩
  · unfold clockReads
    rw [filterMap_run, List.range_succ_eq_map]
    rcases loadEffects_cases env file with h | h | h <;>
      cases (ShowSplashScreen env file ver fuel).isReturned <;>
      simp [setupEffects, h, renderDataBufferEffects, frameOf, frameEffects, teardownEffects,
        flatten_map_singleton]
  · rw [beforeFirstPredEval_run]
    rcases loadEffects_cases env file with h | h | h <;>
      simp [clockReads, setupEffects, h, renderDataBufferEffects]
  · rw [filter_run]
    rcases loadEffects_cases env file with h | h | h <;>
      cases (ShowSplashScreen env file ver fuel).isReturned <;>
      simp [setupEffects, h, renderDataBufferEffects, frameOf, frameEffects, teardownEffects,
        List.filter_cons, isClockOrLoopMark, isClockRead, isLoopMark, isPredEval, isClear, isSwap]

/-! ## Predicate that waits for 50 ms -/

/-- C6, as stated, fails: with a valid image, a clock that advances 30 ms
between readings and a predicate that answers true from 50 ms of that clock
on, the run returns after two frames and the final frame shows 30 ms, which
is below 50 ms. -/
theorem C6_final_frame_shows_50ms_counterexample :
    timedEnv.bmpLoad "splash.png" = true ∧
    timedEnv.testDone = thresholdDone (timedEnv.now 0) 50000000 timedEnv.now ∧
    (ShowSplashScreen timedEnv "splash.png" "1.0" 5).isReturned = true ∧
    ((frames (ShowSplashScreen timedEnv "splash.png" "1.0" 5).trace).map
      elapsedShown).getLast? = some [30] ∧
    ¬ ((50 : ℚ) ≤ 30) := by
  refine ⟨by decide, rfl, by decide, ?_, by norm_num⟩
  rw [elapsedShown_frames]
  have hlen : (frames (ShowSplashScreen timedEnv "splash.png" "1.0" 5).trace).length = 2 := by
    decide
  rw [hlen]
  simp [List.range_succ, timedEnv, toMilliSecsf]
  norm_num

/-- C6, amended: when the predicate answers false as long as less than 50 ms
have passed on the clock since a start no later than the first reading, and
each call of the predicate happens no earlier than the reading that precedes
it, every frame drawn in a bounded run, the final one included, shows an
elapsed time below 50 ms; each frame shows exactly one value. -/
theorem C6_frames_show_less_than_50ms (env : Env) (file ver : String) (fuel : Nat)
    (start : Int) (callTime : Nat → Int) (hstart : start ≤ env.now 0)
    (hcall : ∀ k, env.now k ≤ callTime k)
    (hpred : ∀ k, env.testDone k = thresholdDone start 50000000 callTime k) :
    (∀ q ∈ elapsedShown (ShowSplashScreen env file ver fuel).trace, q < 50) ∧
    (frames (ShowSplashScreen env file ver fuel).trace).map elapsedShown =
      (elapsedShown (ShowSplashScreen env file ver fuel).trace).map (fun q => [q]) := by
  refine ⟨?_, ?_⟩
  · intro q hq
    rw [elapsedShown_run] at hq
    simp only [List.mem_map, List.mem_range] at hq
    obtain ⟨k, hk, rfl⟩ := hq
    have hfalse := testDone_false_of_frame env file ver fuel k hk
    rw [hpred k] at hfalse
    simp only [thresholdDone, decide_eq_false_iff_not, not_le] at hfalse
    have h1 := hcall k
    have h2 : env.now k - env.now 0 < 50000000 := by omega
    unfold toMilliSecsf
    have h3 : ((env.now k - env.now 0 : Int) : ℚ) < 50000000 := by exact_mod_cast h2
    linarith
  · rw [elapsedShown_frames, elapsedShown_run]; simp

/-- Instance of the amended C6: the predicate reads the clock at the instant of the reading before it. -/
theorem C6_frames_show_less_than_50ms_witness :
    (0 : Int) ≤ timedEnv.now 0 ∧ (∀ k, timedEnv.now k ≤ timedEnv.now k) ∧
    (∀ k, timedEnv.testDone k = thresholdDone 0 50000000 timedEnv.now k) ∧
    ((∀ q ∈ elapsedShown (ShowSplashScreen timedEnv "splash.png" "1.0" 5).trace, q < 50) ∧
    (frames (ShowSplashScreen timedEnv "splash.png" "1.0" 5).trace).map elapsedShown =
      (elapsedShown (ShowSplashScreen timedEnv "splash.png" "1.0" 5).trace).map
        (fun q => [q])) :=
  ⟨by decide, fun _ => le_refl _, fun _ => rfl,
    C6_frames_show_less_than_50ms timedEnv "splash.png" "1.0" 5 0 timedEnv.now (by decide)
      (fun _ => le_refl _) (fun _ => rfl)⟩

/-! ## The frame -/

/-- C9: every frame of every bounded run is the same sequence of calls: clear;
bind the splash texture; enable the shader, submit the quad, disable the
shader; set the text colour and buffer the header line, read the archive
counter and buffer the archives line, buffer the elapsed-time line; set the
outline and text colours and buffer the version line and the license line;
flush the buffered text; swap the buffers; poll one event.  The five text
lines come in that order and exactly the last two carry the outline flag;
each frame holds exactly one swap followed by exactly one poll. -/
theorem C9_frame_effect_sequence (env : Env) (file ver : String) (fuel : Nat) :
    frames (ShowSplashScreen env file ver fuel).trace =
      (List.range (frames (ShowSplashScreen env file ver fuel).trace).length).map (fun k => [
        Effect.glClear,
        Effect.glBindTexture (env.createTexture (splashBitmap env file)),
        Effect.rdbEnableShader,
        Effect.rdbSubmit NUM_INDCS,
        Effect.rdbDisableShader,
        Effect.fontSetTextColor TEXT_COLOR,
        Effect.glFormat (TEXT_COORS.x - splashNormWidth env ver 0 * (500 / 1000)) TEXT_COORS.y
          TEXT_COORS.z [FontFlag.NORM, FontFlag.SCALE, FontFlag.BUFFERED] (FMT_STRS 0) none,
        Effect.getNumScannedArchives (env.numScanned k),
        Effect.glFormat (TEXT_COORS.x - splashNormWidth env ver 0 * (475 / 1000))
          (TEXT_COORS.y - TEXT_COORS.w * TEXT_COORS.z * 1) TEXT_COORS.z
          [FontFlag.NORM, FontFlag.SCALE, FontFlag.BUFFERED] (FMT_STRS 1)
          (some (FmtArg.uint (env.numScanned k))),
        Effect.glFormat (TEXT_COORS.x - splashNormWidth env ver 0 * (475 / 1000))
          (TEXT_COORS.y - TEXT_COORS.w * TEXT_COORS.z * 2) TEXT_COORS.z
          [FontFlag.NORM, FontFlag.SCALE, FontFlag.BUFFERED] (FMT_STRS 2)
          (some (FmtArg.float (toMilliSecsf (env.now k - env.now 0)))),
        Effect.fontSetOutlineColor ⟨0, 0, 0, 65 / 100⟩,
        Effect.fontSetTextColor TEXT_COLOR,
        Effect.glFormat (TEXT_COORS.x - splashNormWidth env ver 2 * (5 / 10))
          (TEXT_COORS.y * (5 / 10) - TEXT_COORS.w * TEXT_COORS.z * 1) TEXT_COORS.z
          [FontFlag.NORM, FontFlag.SCALE, FontFlag.BUFFERED, FontFlag.OUTLINE] (FMT_STRS 3)
          (some (FmtArg.cstr (c_str ver))),
        Effect.glFormat (TEXT_COORS.x - splashNormWidth env ver 1 * (5 / 10))
          (TEXT_COORS.y * (5 / 10) - TEXT_COORS.w * TEXT_COORS.z * 2) TEXT_COORS.z
          [FontFlag.NORM, FontFlag.SCALE, FontFlag.BUFFERED, FontFlag.OUTLINE] (FMT_STRS 4) none,
        Effect.fontDrawBufferedGL4,
        Effect.swapBuffers,
        Effect.pollEvent]) ∧
    (frames (ShowSplashScreen env file ver fuel).trace).map textLines =
      List.replicate (frames (ShowSplashScreen env file ver fuel).trace).length
        [(FMT_STRS 0, false), (FMT_STRS 1, false), (FMT_STRS 2, false),
          (FMT_STRS 3, true), (FMT_STRS 4, true)] ∧
    (frames (ShowSplashScreen env file ver fuel).trace).map (List.filter isSwapOrPoll) =
      List.replicate (frames (ShowSplashScreen env file ver fuel).trace).length
        [Effect.swapBuffers, Effect.pollEvent] := by
  obtain ⟨_, hframes⟩ := run_shape_frames env file ver fuel
  refine ⟨?_, ?_, ?_⟩
  · conv_lhs => rw [hframes]
    simp [frameOf, frameEffects, splashTexOf, fontFlags]
  · have h : ∀ k, textLines (frameOf env file ver k) =
        [(FMT_STRS 0, false), (FMT_STRS 1, false), (FMT_STRS 2, false),
          (FMT_STRS 3, true), (FMT_STRS 4, true)] := by
      intro k; simp [frameOf, frameEffects, textLines, fontFlags]
    conv_lhs => rw [hframes]
    simp only [List.map_map, Function.comp_def, h, List.map_const', List.length_range]
  · have h : ∀ k, (frameOf env file ver k).filter isSwapOrPoll =
        [Effect.swapBuffers, Effect.pollEvent] := by
      intro k
      simp [frameOf, frameEffects, List.filter_cons, isSwapOrPoll, isSwap, isPoll]
    conv_lhs => rw [hframes]
    simp only [List.map_map, Function.comp_def, h, List.map_const', List.length_range]

/-! ## The quad -/

theorem vertexPos_values (K : Type) [LinearOrderedField K] :
    vertexPos K 0 = (-1, 1) ∧ vertexPos K 1 = (-1, -1) ∧ vertexPos K 2 = (1, -1) ∧
      vertexPos K 3 = (1, 1) := by
  simp [vertexPos, ELEMS]

theorem quad_covers_viewport (K : Type) [LinearOrderedField K] (p : K × K) :
    (∃ t ∈ trianglesOf INDCS, inTriangle t p) ↔ inViewport p := by
  obtain ⟨v0, v1, v2, v3⟩ := vertexPos_values K
  simp only [INDCS, trianglesOf, List.mem_cons, List.mem_singleton, List.not_mem_nil, or_false,
    exists_eq_or_imp, exists_eq_left, inTriangle, inViewport, cross, v0, v1, v2, v3]
  constructor
  · rintro ((⟨h1, h2, h3⟩ | ⟨h1, h2, h3⟩) | (⟨h1, h2, h3⟩ | ⟨h1, h2, h3⟩)) <;>
      refine ⟨?_, ?_, ?_, ?_⟩ <;> linarith
  · rintro ⟨h1, h2, h3, h4⟩
    by_cases h : p.1 + p.2 ≤ 0
    · left; left; refine ⟨?_, ?_, ?_⟩ <;> linarith
    · right; left; refine ⟨?_, ?_, ?_⟩ <;> linarith

theorem quad_interiors_disjoint (K : Type) [LinearOrderedField K] (p : K × K) :
    ¬ (inTriangleInterior (0, 1, 2) p ∧ inTriangleInterior (2, 3, 0) p) := by
  obtain ⟨v0, v1, v2, v3⟩ := vertexPos_values K
  simp only [inTriangleInterior, cross, v0, v1, v2, v3]
  rintro ⟨(⟨h1, h2, h3⟩ | ⟨h1, h2, h3⟩), (⟨g1, g2, g3⟩ | ⟨g1, g2, g3⟩)⟩ <;> linarith

/-- C7: the quad has 4 vertices and 6 indices, every index is below 4, the
indices assemble the triangles (0,1,2) and (2,3,0), neither of area zero;
over every ordered field (the reals among them) the two closed triangles
together are exactly the square from -1 to 1 in both coordinates and their
interiors share no point; and in every bounded run the one upload passes the
6 indices with the count 6 and each frame submits exactly one draw call, with
that same count. -/
theorem C7_quad_geometry (K : Type) [LinearOrderedField K] (env : Env) (file ver : String)
    (fuel : Nat) :
    ELEMS.length = 4 ∧ INDCS.length = 6 ∧ NUM_ELEMS = 4 ∧ NUM_INDCS = 6 ∧
    (∀ i ∈ INDCS, i < ELEMS.length) ∧
    trianglesOf INDCS = [(0, 1, 2), (2, 3, 0)] ∧
    (∀ t ∈ trianglesOf INDCS, ¬ isDegenerate K t) ∧
    (∀ p : K × K, (∃ t ∈ trianglesOf INDCS, inTriangle t p) ↔ inViewport p) ∧
    (∀ p : K × K, ¬ (inTriangleInterior (0, 1, 2) p ∧ inTriangleInterior (2, 3, 0) p)) ∧
    uploadedIndices (ShowSplashScreen env file ver fuel).trace = [(INDCS.length, INDCS)] ∧
    (frames (ShowSplashScreen env file ver fuel).trace).map submittedCounts =
      List.replicate (frames (ShowSplashScreen env file ver fuel).trace).length
        [INDCS.length] ∧
    submittedCounts (ShowSplashScreen env file ver fuel).trace =
      List.replicate (frames (ShowSplashScreen env file ver fuel).trace).length
        INDCS.length := by
  refine ⟨rfl, rfl, rfl, rfl, by decide, rfl, ?_, quad_covers_viewport K,
    quad_interiors_disjoint K, ?_, ?_, ?_⟩
  · obtain ⟨v0, v1, v2, v3⟩ := vertexPos_values K
    intro t ht
    simp only [INDCS, trianglesOf, List.mem_cons, List.mem_singleton, List.not_mem_nil,
      or_false] at ht
    rcases ht with rfl | rfl <;> simp only [isDegenerate, cross, v0, v1, v2, v3] <;> norm_num
  · unfold uploadedIndices
    rw [filterMap_run]
    rcases loadEffects_cases env file with h | h | h <;>
      cases (ShowSplashScreen env file ver fuel).isReturned <;>
      simp [setupEffects, h, renderDataBufferEffects, frameOf, frameEffects, teardownEffects,
        NUM_INDCS]
  · obtain ⟨_, hframes⟩ := run_shape_frames env file ver fuel
    have h : ∀ k, submittedCounts (frameOf env file ver k) = [INDCS.length] := by
      intro k; simp [frameOf, frameEffects, submittedCounts, NUM_INDCS]
    conv_lhs => rw [hframes]
    simp only [List.map_map, Function.comp_def, h, List.map_const', List.length_range]
  · unfold submittedCounts
    rw [filterMap_run]
    rcases loadEffects_cases env file with h | h | h <;>
      cases (ShowSplashScreen env file ver fuel).isReturned <;>
      simp [setupEffects, h, renderDataBufferEffects, frameOf, frameEffects, teardownEffects,
        NUM_INDCS, flatten_map_singleton, List.map_const']

/-! ## Centring of the title lines -/

theorem c_str_eq_self (v : String) (hv : Char.ofNat 0 ∉ v.data) : c_str v = v := by
  unfold c_str
  have : v.data.takeWhile (fun c => c != Char.ofNat 0) = v.data := by
    rw [List.takeWhile_eq_self_iff]
    intro c hc
    simp only [bne_iff_ne, ne_eq]
    rintro rfl
    exact hv hc
  rw [this]

theorem formatted_title (shown : FmtArg → List Char) (v : String) :
    formatted shown (FMT_STRS 0) none = FMT_STRS 0 ∧
    formatted shown (FMT_STRS 4) none = FMT_STRS 4 ∧
    formatted shown (FMT_STRS 3) (some (FmtArg.cstr v)) = "Spring " ++ v := by
  refine ⟨rfl, rfl, ?_⟩
  have h : (formatted shown (FMT_STRS 3) (some (FmtArg.cstr v))).data =
      "Spring ".data ++ (v.data ++ []) := rfl
  apply String.ext
  rw [h]
  simp

theorem titleLines_filter (env : Env) (file ver : String) (k : Nat) :
    (frameOf env file ver k).filter isTitleLine = [
      Effect.glFormat (TEXT_COORS.x - splashNormWidth env ver 0 * (500 / 1000)) TEXT_COORS.y
        TEXT_COORS.z fontFlags (FMT_STRS 0) none,
      Effect.glFormat (TEXT_COORS.x - splashNormWidth env ver 2 * (5 / 10))
        (TEXT_COORS.y * (5 / 10) - TEXT_COORS.w * TEXT_COORS.z * 1) TEXT_COORS.z
        (fontFlags ++ [FontFlag.OUTLINE]) (FMT_STRS 3) (some (FmtArg.cstr (c_str ver))),
      Effect.glFormat (TEXT_COORS.x - splashNormWidth env ver 1 * (5 / 10))
        (TEXT_COORS.y * (5 / 10) - TEXT_COORS.w * TEXT_COORS.z * 2) TEXT_COORS.z
        (fontFlags ++ [FontFlag.OUTLINE]) (FMT_STRS 4) none] := rfl

theorem titleLines_frameOf (env : Env) (shown : FmtArg → List Char) (file ver : String)
    (hv : Char.ofNat 0 ∉ ver.data) (k : Nat) :
    ((frameOf env file ver k).filter isTitleLine).map (isCentred env shown) =
      [true, true, true] := by
  obtain ⟨f0, f4, f3⟩ := formatted_title shown ver
  rw [titleLines_filter, c_str_eq_self ver hv]
  simp only [List.map_cons, List.map_nil, isCentred, lineWidth, f0, f4, f3, splashNormWidth,
    normWidthOf, TEXT_COORS]
  have e0 : ∀ w : ℚ, (1 / 2 - w * env.pixelX * env.fontSize * (8 / 10) * (500 / 1000) =
      1 / 2 - w * env.pixelX * env.fontSize * (8 / 10) / 2) := by intro w; ring
  have e1 : ∀ w : ℚ, (1 / 2 - w * env.pixelX * env.fontSize * (8 / 10) * (5 / 10) =
      1 / 2 - w * env.pixelX * env.fontSize * (8 / 10) / 2) := by intro w; ring
  simp only [e0, e1, decide_True]

theorem titleLines_run (env : Env) (file ver : String) (fuel : Nat) :
    (ShowSplashScreen env file ver fuel).trace.filter isTitleLine =
      ((List.range (frames (ShowSplashScreen env file ver fuel).trace).length).map
        (fun k => (frameOf env file ver k).filter isTitleLine)).flatten := by
  rw [filter_run]
  have hs : (setupEffects env file ver).filter isTitleLine = [] := by
    rcases loadEffects_cases env file with h | h | h <;>
      simp [setupEffects, h, renderDataBufferEffects, List.filter_cons, isTitleLine]
  have he : (if (ShowSplashScreen env file ver fuel).isReturned then
      Effect.testDone true :: teardownEffects (splashTexOf env file) else []).filter
      isTitleLine = [] := by
    cases (ShowSplashScreen env file ver fuel).isReturned <;>
      simp [teardownEffects, List.filter_cons, isTitleLine]
  have hi : ∀ j, (Effect.testDone false :: (frameOf env file ver j ++
      [Effect.springNow (env.now (j + 1))])).filter isTitleLine =
      (frameOf env file ver j).filter isTitleLine := by
    intro j
    simp [List.filter_cons, List.filter_append, isTitleLine]
  rw [hs, he]
  simp only [hi, List.nil_append, List.append_nil]

/-- C8, as stated, fails: for the version string that holds a, a NUL
character and b, the version line renders the text Spring a, which is not the
text whose width was measured, and with a font that measures a text by
its length the version line of each frame is not centred, while the header
and the license line are. -/
theorem C8_title_lines_centred_counterexample :
    formatted noDigits (FMT_STRS 3) (some (FmtArg.cstr (c_str "a\x00b"))) = "Spring a" ∧
    "Spring " ++ "a\x00b" ≠ "Spring a" ∧
    (frames (ShowSplashScreen sampleEnv "" "a\x00b" 3).trace).map
        (fun fr => (fr.filter isTitleLine).map (isCentred sampleEnv noDigits)) =
      [[true, false, true], [true, false, true]] := by
  refine ⟨by decide, by decide, ?_⟩
  obtain ⟨_, hframes⟩ := run_shape_frames sampleEnv "" "a\x00b" 3
  have hlen : (frames (ShowSplashScreen sampleEnv "" "a\x00b" 3).trace).length = 2 := by decide
  rw [hframes, hlen]
  have hc : c_str "a\x00b" = "a" := by decide
  have l0 : (FMT_STRS 0).length = 34 := by decide
  have l4 : (FMT_STRS 4).length = 103 := by decide
  have l3 : ("Spring " ++ "a\x00b").length = 10 := by decide
  have l3r : ("Spring " ++ "a").length = 8 := by decide
  obtain ⟨f0, f4, f3⟩ := formatted_title noDigits "a"
  simp only [List.range_succ, List.range_zero, List.nil_append, List.cons_append, List.map_cons,
    List.map_nil, titleLines_filter, hc, isCentred, lineWidth, f0, f4, f3, splashNormWidth,
    normWidthOf, TEXT_COORS, sampleEnv, l0, l4, l3, l3r]
  norm_num

/-- C8, amended: for every version string without a NUL character, in every
bounded run, the text that the version line renders is Spring, a blank and
the version string, the text whose width was measured, and in every frame
each of the header line, the version line and the license line is drawn with
its left edge at 0.5 minus half the normalized width of the text it renders
(measured width times pixel scale times font size times 0.8), so that its
midpoint is 0.5. -/
theorem C8_title_lines_centred (env : Env) (shown : FmtArg → List Char) (file ver : String)
    (fuel : Nat) (hv : Char.ofNat 0 ∉ ver.data) :
    formatted shown (FMT_STRS 3) (some (FmtArg.cstr (c_str ver))) = "Spring " ++ ver ∧
    (frames (ShowSplashScreen env file ver fuel).trace).map
        (fun fr => (fr.filter isTitleLine).map (isCentred env shown)) =
      List.replicate (frames (ShowSplashScreen env file ver fuel).trace).length
        [true, true, true] ∧
    ((ShowSplashScreen env file ver fuel).trace.filter isTitleLine).all
      (isCentred env shown) = true := by
  refine ⟨?_, ?_, ?_⟩
  · rw [c_str_eq_self ver hv]
    exact (formatted_title shown ver).2.2
  · obtain ⟨_, hframes⟩ := run_shape_frames env file ver fuel
    conv_lhs => rw [hframes]
    simp only [List.map_map, Function.comp_def, titleLines_frameOf env shown file ver hv,
      List.map_const', List.length_range]
  · rw [titleLines_run, List.all_eq_true]
    intro e he
    simp only [List.mem_flatten, List.mem_map, List.mem_range] at he
    obtain ⟨l, ⟨k, _, rfl⟩, hel⟩ := he
    have h := titleLines_frameOf env shown file ver hv k
    have hmem : isCentred env shown e ∈
        ((frameOf env file ver k).filter isTitleLine).map (isCentred env shown) :=
      List.mem_map_of_mem _ hel
    rw [h] at hmem
    simpa using hmem

/-- Instance of the amended C8: the version string 104.0. -/
theorem C8_title_lines_centred_witness :
    Char.ofNat 0 ∉ "104.0".data ∧
    (formatted noDigits (FMT_STRS 3) (some (FmtArg.cstr (c_str "104.0"))) =
      "Spring " ++ "104.0" ∧
    (frames (ShowSplashScreen sampleEnv "" "104.0" 3).trace).map
        (fun fr => (fr.filter isTitleLine).map (isCentred sampleEnv noDigits)) =
      List.replicate (frames (ShowSplashScreen sampleEnv "" "104.0" 3).trace).length
        [true, true, true] ∧
    ((ShowSplashScreen sampleEnv "" "104.0" 3).trace.filter isTitleLine).all
      (isCentred sampleEnv noDigits) = true) :=
  ⟨by decide, C8_title_lines_centred sampleEnv noDigits "" "104.0" 3 (by decide)⟩

end SplashScreen
